import Mathlib

/-!
Shallow embedding of the rainfall-dashboard helper functions from
`app.py` and `ana_streamlit_data.py`.

Modelling conventions:
* pandas `DataFrame`s become `Frame`s: a header (column names), a flag
  telling whether the row index is a `DatetimeIndex`, and rows carrying an
  integer index key plus an association list from column name to `Cell`.
* Python floats become `ℚ`.  Timestamps are modelled at day granularity as
  `ℤ` (all code in the repository uses daily frequency); the calendar field
  extractors (`.year`, `.month`, ...) and the transcendental functions
  (`np.sin`, `np.cos`, `np.pi`) as well as the string parsers behind
  `pd.to_datetime` / `pd.to_numeric` and every random-number draw are
  abstract parameters collected in an `Env`, since the claims quantify over
  every choice of noise and never depend on their concrete values.
* A missing value (`NaN` / `NaT`) is the cell `Cell.na`; cell-level
  arithmetic propagates it exactly as float NaN does, and operations that
  raise `TypeError` in Python return `Except.error`.
* `np.round(x, k)` rounds half to even; it is embedded exactly
  (`roundHalfEven`).
-/

/-- One value of a pandas cell: a number, a timestamp (day number),
a missing value (`NaN`/`NaT`), or a leftover string. -/
inductive Cell where
  | num (q : ℚ)
  | date (d : ℤ)
  | na
  | str (s : String)
deriving DecidableEq, Repr

def Cell.isNa : Cell → Bool
  | .na => true
  | _ => false

def Cell.asNum : Cell → Option ℚ
  | .num q => some q
  | _ => none

/-- A row: association list from column name to cell value. -/
abbrev Row := List (String × Cell)

/-- A pandas DataFrame: column names, whether the index is a
`DatetimeIndex`, and rows of (index key, cells).  The index key is the
day number when `hasDateIndex` is true and a plain position otherwise. -/
structure Frame where
  header : List String
  hasDateIndex : Bool
  rows : List (ℤ × Row)
deriving DecidableEq, Repr

def Frame.empty : Frame := ⟨[], false, []⟩

/-- Series lookup by label (`row[c]`), first match. -/
def rowGet (r : Row) (c : String) : Option Cell :=
  (r.find? (fun p => p.1 == c)).map (·.2)

def rowGetD (r : Row) (c : String) (d : Cell) : Cell :=
  (rowGet r c).getD d

/-- Replace every cell under key `c` without appending. -/
def rowReplace : Row → String → Cell → Row
  | [], _, _ => []
  | p :: rest, c, v => (if p.1 == c then (c, v) else p) :: rowReplace rest c v

/-- Column assignment at row level: replace the cells under key `c`
(pandas keeps the column position), appending when the key is new. -/
def rowSet : Row → String → Cell → Row
  | [], c, v => [(c, v)]
  | p :: rest, c, v =>
    if p.1 == c then (c, v) :: rowReplace rest c v else p :: rowSet rest c v

/-- Remove a column from a row (used by `set_index`). -/
def rowErase (r : Row) (c : String) : Row :=
  r.filter (fun p => !(p.1 == c))

/-- `df[c]` as a list of cells (missing keys read as `NaN`). -/
def getColCells (f : Frame) (c : String) : List Cell :=
  f.rows.map (fun p => rowGetD p.2 c Cell.na)

/-- `df[c] = vals`: write a whole column, appending the name to the
header when new. -/
def setColVals (f : Frame) (c : String) (vals : List Cell) : Frame :=
  { header := if c ∈ f.header then f.header else f.header ++ [c]
    hasDateIndex := f.hasDateIndex
    rows := (f.rows.zip vals).map (fun pv => (pv.1.1, rowSet pv.1.2 c pv.2)) }

/-- The abstract part of the execution environment: the current day,
the calendar field extractors of a `DatetimeIndex`, `np.sin`/`np.cos`
and `np.pi` (kept abstract), and the string/number parsers behind
`pd.to_datetime` and `pd.to_numeric`. -/
structure Env where
  today : ℤ
  year : ℤ → ℤ
  month : ℤ → ℤ
  day : ℤ → ℤ
  dayofyear : ℤ → ℤ
  dayofweek : ℤ → ℤ
  sin : ℚ → ℚ
  cos : ℚ → ℚ
  pi : ℚ
  parseDateStr : String → Option ℤ
  parseDateNum : ℚ → Option ℤ
  parseNumStr : String → Option ℚ
  parseNumDate : ℤ → Option ℚ

/-- Round half to even, the tie-breaking rule of `np.round` and Python's
`round`. -/
def roundHalfEven (x : ℚ) : ℤ :=
  if x - ⌊x⌋ < 1/2 then ⌊x⌋
  else if 1/2 < x - ⌊x⌋ then ⌊x⌋ + 1
  else if Even ⌊x⌋ then ⌊x⌋ else ⌊x⌋ + 1

/-- `np.round(x, 1)`. -/
def np_round1 (x : ℚ) : ℚ := (roundHalfEven (x * 10) : ℚ) / 10

/-- `np.round(x, 2)`. -/
def np_round2 (x : ℚ) : ℚ := (roundHalfEven (x * 100) : ℚ) / 100

/-- Python `round(x, 3)`. -/
def py_round3 (x : ℚ) : ℚ := (roundHalfEven (x * 1000) : ℚ) / 1000

/-- `np.clip(x, lo, hi)`. -/
def np_clip (x lo hi : ℚ) : ℚ := max lo (min x hi)

theorem floor_le_roundHalfEven (x : ℚ) : ⌊x⌋ ≤ roundHalfEven x := by
  unfold roundHalfEven
  split
  · omega
  · split
    · omega
    · split <;> omega

theorem roundHalfEven_le_floor_add_one (x : ℚ) : roundHalfEven x ≤ ⌊x⌋ + 1 := by
  unfold roundHalfEven
  split
  · omega
  · split
    · omega
    · split <;> omega

theorem roundHalfEven_nonneg {x : ℚ} (hx : 0 ≤ x) : 0 ≤ roundHalfEven x := by
  have hf : (0 : ℤ) ≤ ⌊x⌋ := Int.le_floor.mpr (by exact_mod_cast hx)
  have := floor_le_roundHalfEven x
  omega

theorem roundHalfEven_mono {x y : ℚ} (hxy : x ≤ y) :
    roundHalfEven x ≤ roundHalfEven y := by
  rcases lt_or_le ⌊x⌋ ⌊y⌋ with hf | hf
  · have h1 := roundHalfEven_le_floor_add_one x
    have h2 := floor_le_roundHalfEven y
    omega
  · have hfe : ⌊x⌋ = ⌊y⌋ := le_antisymm (Int.floor_le_floor hxy) hf
    have hr : x - ⌊x⌋ ≤ y - ⌊y⌋ := by rw [hfe]; linarith
    by_cases h1 : x - ⌊x⌋ < 1/2
    · have hx1 : roundHalfEven x = ⌊x⌋ := by unfold roundHalfEven; rw [if_pos h1]
      rw [hx1, hfe]
      exact floor_le_roundHalfEven y
    · by_cases h2 : (1/2 : ℚ) < x - ⌊x⌋
      · have hy2 : (1/2 : ℚ) < y - ⌊y⌋ := lt_of_lt_of_le h2 hr
        have hx1 : roundHalfEven x = ⌊x⌋ + 1 := by
          unfold roundHalfEven; rw [if_neg h1, if_pos h2]
        have hy1 : roundHalfEven y = ⌊y⌋ + 1 := by
          unfold roundHalfEven
          rw [if_neg (by push_neg; linarith), if_pos hy2]
        omega
      · have hx2 : x - ⌊x⌋ = 1/2 := le_antisymm (not_lt.mp h2) (not_lt.mp h1)
        by_cases h3 : y - ⌊y⌋ = 1/2
        · have hxy2 : x = y := by
            have : (⌊x⌋ : ℚ) = (⌊y⌋ : ℚ) := by exact_mod_cast hfe
            linarith
          rw [hxy2]
        · have hy2 : (1/2 : ℚ) < y - ⌊y⌋ :=
            lt_of_le_of_ne (le_trans (le_of_eq hx2.symm) hr) (Ne.symm h3)
          have hy1 : roundHalfEven y = ⌊y⌋ + 1 := by
            unfold roundHalfEven
            rw [if_neg (by push_neg; linarith), if_pos hy2]
          have := roundHalfEven_le_floor_add_one x
          omega

theorem np_round2_nonneg {x : ℚ} (hx : 0 ≤ x) : 0 ≤ np_round2 x := by
  unfold np_round2
  have h := @roundHalfEven_nonneg (x * 100) (by positivity)
  have : (0 : ℚ) ≤ (roundHalfEven (x * 100) : ℚ) := by exact_mod_cast h
  linarith

theorem py_round3_mono {x y : ℚ} (hxy : x ≤ y) : py_round3 x ≤ py_round3 y := by
  unfold py_round3
  have h := @roundHalfEven_mono (x * 1000) (y * 1000) (by linarith)
  have : (roundHalfEven (x * 1000) : ℚ) ≤ (roundHalfEven (y * 1000) : ℚ) := by
    exact_mod_cast h
  linarith

/-! ## Input validation (`validate_temperature_range`, `validate_meteorological_data`) -/

/-- `validate_temperature_range` from `app.py`: returns a validity flag
and a single message (empty on success). -/
def validate_temperature_range (temp_max temp_min : ℚ) : Bool × String :=
  if temp_max < -50 ∨ 60 < temp_max then
    (false, "Temperatura máxima fora da faixa válida (-50°C a 60°C)")
  else if temp_min < -60 ∨ 50 < temp_min then
    (false, "Temperatura mínima fora da faixa válida (-60°C a 50°C)")
  else if temp_max ≤ temp_min then
    (false, "Temperatura mínima deve ser menor que a máxima")
  else (true, "")

/-- A meteorological record passed to `validate_meteorological_data`:
each field is present (`some`) or absent from the dict (`none`). -/
structure MeteoRecord where
  temp_max : Option ℚ
  temp_min : Option ℚ
  umidade : Option ℚ
  pressao : Option ℚ
  vel_vento : Option ℚ
deriving DecidableEq, Repr

/-- `validate_meteorological_data` from `app.py`: collects bound
violations for the fields present in the record and returns
`(errors == [], errors)`. -/
def validate_meteorological_data (data : MeteoRecord) : Bool × List String :=
  let errors : List String :=
    (match data.temp_max, data.temp_min with
     | some tmax, some tmin =>
       let v := validate_temperature_range tmax tmin
       if v.1 then [] else [v.2]
     | _, _ => []) ++
    (match data.umidade with
     | some u => if u < 0 ∨ 100 < u then ["Umidade deve estar entre 0% e 100%"] else []
     | none => []) ++
    (match data.pressao with
     | some p =>
       if p < 800 ∨ 1100 < p then
         ["Pressão atmosférica deve estar entre 800 hPa e 1100 hPa"] else []
     | none => []) ++
    (match data.vel_vento with
     | some v =>
       if v < 0 ∨ 200 < v then
         ["Velocidade do vento deve estar entre 0 m/s e 200 m/s"] else []
     | none => [])
  (errors.isEmpty, errors)

/-! ## Fabricated model metrics (`calculate_enhanced_metrics`) -/

/-- One entry of the hard-coded metrics table: (RMSE, MAE, R2). -/
structure Metrics where
  rmse : ℚ
  mae : ℚ
  r2 : ℚ
deriving DecidableEq, Repr

/-- The `base_metrics` dictionary of `calculate_enhanced_metrics`. -/
def base_metrics : List (String × Metrics) :=
  [("Itirapina", ⟨21/10, 16/10, 82/100⟩),
   ("Santos", ⟨28/10, 21/10, 75/100⟩),
   ("Cuiabá", ⟨32/10, 24/10, 68/100⟩),
   ("Natal", ⟨25/10, 19/10, 78/100⟩),
   ("Campinas", ⟨23/10, 17/10, 80/100⟩),
   ("Ribeirão Preto", ⟨24/10, 18/10, 79/100⟩),
   ("São José dos Campos", ⟨22/10, 17/10, 81/100⟩),
   ("Sorocaba", ⟨23/10, 17/10, 80/100⟩),
   ("Piracicaba", ⟨23/10, 17/10, 80/100⟩),
   ("Bauru", ⟨25/10, 19/10, 78/100⟩),
   ("Araraquara", ⟨24/10, 18/10, 79/100⟩),
   ("São Carlos", ⟨23/10, 17/10, 80/100⟩),
   ("Franca", ⟨24/10, 18/10, 79/100⟩),
   ("Presidente Prudente", ⟨26/10, 20/10, 77/100⟩),
   ("Marília", ⟨24/10, 18/10, 79/100⟩),
   ("Araçatuba", ⟨27/10, 20/10, 76/100⟩),
   ("Botucatu", ⟨24/10, 18/10, 79/100⟩),
   ("Rio Claro", ⟨23/10, 17/10, 80/100⟩),
   ("Limeira", ⟨23/10, 17/10, 80/100⟩),
   ("Americana", ⟨23/10, 17/10, 80/100⟩),
   ("Jundiaí", ⟨22/10, 17/10, 81/100⟩),
   ("Taubaté", ⟨23/10, 17/10, 80/100⟩),
   ("Guaratinguetá", ⟨23/10, 17/10, 80/100⟩),
   ("Jacareí", ⟨22/10, 17/10, 81/100⟩),
   ("Mogi das Cruzes", ⟨23/10, 17/10, 80/100⟩),
   ("Suzano", ⟨24/10, 18/10, 79/100⟩),
   ("Diadema", ⟨25/10, 19/10, 78/100⟩),
   ("Campo Grande", ⟨26/10, 20/10, 77/100⟩),
   ("Londrina", ⟨24/10, 18/10, 79/100⟩),
   ("Maringá", ⟨24/10, 18/10, 79/100⟩),
   ("Cascavel", ⟨25/10, 19/10, 78/100⟩),
   ("João Pessoa", ⟨26/10, 20/10, 77/100⟩),
   ("Recife", ⟨29/10, 22/10, 74/100⟩),
   ("Salvador", ⟨27/10, 21/10, 76/100⟩),
   ("Aracaju", ⟨26/10, 20/10, 77/100⟩)]

/-- Dictionary lookup with fallback (`base_metrics.get(m, base_metrics["Itirapina"])`). -/
def baseMetricsOf (muni : String) : Metrics :=
  ((base_metrics.find? (fun p => p.1 == muni)).map (·.2)).getD ⟨21/10, 16/10, 82/100⟩

/-- The horizon degradation factor: `1 + (num_days - 7) * 0.05` past one week. -/
def degradationFactor (num_days : ℕ) : ℚ :=
  if 7 < num_days then 1 + ((num_days : ℚ) - 7) * (5/100) else 1

/-- `calculate_enhanced_metrics` from `app.py`: base metrics of the
municipality (falling back to Itirapina), degraded past 7 days, each
value rounded to 3 decimals. -/
def calculate_enhanced_metrics (muni : String) (num_days : ℕ) : Metrics :=
  let b := baseMetricsOf muni
  let f := degradationFactor num_days
  ⟨py_round3 (b.rmse * f), py_round3 (b.mae * f), py_round3 (b.r2 * (1 / f))⟩

/-! ## Cell-level pandas semantics -/

/-- `pd.to_datetime(_, errors='coerce')` on one cell. -/
def parseDateCell (env : Env) : Cell → Option ℤ
  | .date d => some d
  | .na => none
  | .str s => env.parseDateStr s
  | .num q => env.parseDateNum q

def coerceDateCell (env : Env) (c : Cell) : Cell :=
  match parseDateCell env c with
  | some d => .date d
  | none => .na

/-- `pd.to_numeric(_, errors='coerce')` on one cell. -/
def parseNumCell (env : Env) : Cell → Option ℚ
  | .num q => some q
  | .na => none
  | .str s => env.parseNumStr s
  | .date d => env.parseNumDate d

def toNumCell (env : Env) (c : Cell) : Cell :=
  match parseNumCell env c with
  | some q => .num q
  | none => .na

/-- Elementwise `+` on object cells: numbers add, `NaN` propagates over
numbers, strings concatenate, every other combination raises
`TypeError` (in particular `Timestamp + Timestamp` and `NaN + str`). -/
def cellAdd : Cell → Cell → Except String Cell
  | .num a, .num b => .ok (.num (a + b))
  | .num _, .na => .ok .na
  | .na, .num _ => .ok .na
  | .na, .na => .ok .na
  | .str a, .str b => .ok (.str (a ++ b))
  | _, _ => .error "TypeError"

/-- Elementwise `-`: numbers subtract, `NaN` propagates; other cases
raise.  (`Timestamp - Timestamp` would give a `Timedelta`, but in the
pipeline `temp_media` has already raised on date-valued columns before
any subtraction is reached, so the branch is modelled as the error it
eventually causes.) -/
def cellSub : Cell → Cell → Except String Cell
  | .num a, .num b => .ok (.num (a - b))
  | .num _, .na => .ok .na
  | .na, .num _ => .ok .na
  | .na, .na => .ok .na
  | _, _ => .error "TypeError"

/-- Division of a cell by a nonzero constant. -/
def cellDivByConst (c : Cell) (k : ℚ) : Except String Cell :=
  match c with
  | .num a => .ok (.num (a / k))
  | .na => .ok .na
  | _ => .error "TypeError"

/-- A unary numeric ufunc (`np.sin`, `np.cos`) applied to one cell:
`NaN` maps to `NaN`, non-numeric cells raise. -/
def cellMap (g : ℚ → ℚ) : Cell → Except String Cell
  | .num q => .ok (.num (g q))
  | .na => .ok .na
  | _ => .error "TypeError"

/-! ## The steps of `create_features_enhanced` -/

structure FeatConfig where
  date_column : String
  column_mapping : List (String × String)
  numeric_columns : List String

/-- `df.rename(columns=mapping)`. -/
def renameStep (m : List (String × String)) (f : Frame) : Frame :=
  let ren := fun s => (((m.find? (fun p => p.1 == s)).map (·.2)).getD s)
  { header := f.header.map ren
    hasDateIndex := f.hasDateIndex
    rows := f.rows.map (fun p => (p.1, p.2.map (fun q => (ren q.1, q.2)))) }

/-- The sort key used by `sort_values(date_column)` after coercion
(only date cells remain in the column at that point). -/
def rowDateKey (r : Row) (c : String) : ℤ :=
  match rowGet r c with
  | some (.date d) => d
  | _ => 0

/-- Lines 129-137 of `app.py`: coerce the date column, drop the rows
whose date failed to parse, sort by date and move the column into the
index.  Also returns how many rows were removed (for the warning). -/
def dateStep (env : Env) (dc : String) (f : Frame) : Frame × ℕ :=
  let coerced := f.rows.map
    (fun p => (p.1, rowSet p.2 dc (coerceDateCell env (rowGetD p.2 dc Cell.na))))
  let kept := coerced.filter (fun p => !((rowGetD p.2 dc Cell.na).isNa))
  let sorted := List.insertionSort
    (fun p q => rowDateKey p.2 dc ≤ rowDateKey q.2 dc) kept
  (⟨f.header.filter (fun h => !(h == dc)), true,
    sorted.map (fun p => (rowDateKey p.2 dc, rowErase p.2 dc))⟩,
   f.rows.length - kept.length)

/-- `Series.median()`: the middle of the sorted values, the mean of the
two middles for an even count. -/
def medianQ (l : List ℚ) : ℚ :=
  let s := List.insertionSort (· ≤ ·) l
  if s.length % 2 = 1 then s.getD (s.length / 2) 0
  else (s.getD (s.length / 2 - 1) 0 + s.getD (s.length / 2) 0) / 2

/-- Median of a coerced column, `none` when every value is `NaN`. -/
def colMedian (cells : List Cell) : Option ℚ :=
  let qs := cells.filterMap Cell.asNum
  if qs.isEmpty then none else some (medianQ qs)

/-- Lines 140-146: `pd.to_numeric(_, errors='coerce')` on one column
followed by `fillna(median)`.  (The `isna().sum() > 0` guard is dropped:
filling with the median is a no-op when there is nothing to fill, and
`fillna(NaN)` — the all-`NaN` case — is also a no-op.) -/
def applyNumeric (env : Env) (c : String) (f : Frame) : Frame :=
  let coerced := (getColCells f c).map (toNumCell env)
  let filled :=
    match colMedian coerced with
    | some m => coerced.map (fun x => if x.isNa then Cell.num m else x)
    | none => coerced
  setColVals f c filled

def numericStep (env : Env) (cols : List String) (f : Frame) : Frame :=
  cols.foldl (fun acc c => if c ∈ acc.header then applyNumeric env c acc else acc) f

/-- Lines 149-153: the calendar features read off the index.  On a
frame whose index is not a `DatetimeIndex` this is the `AttributeError`
that sends `create_features_enhanced` into its `except` branch. -/
def calendarStep (env : Env) (f : Frame) : Except String Frame :=
  if f.hasDateIndex then
    let f1 := setColVals f "ano" (f.rows.map (fun p => Cell.num (env.year p.1 : ℚ)))
    let f2 := setColVals f1 "mes" (f1.rows.map (fun p => Cell.num (env.month p.1 : ℚ)))
    let f3 := setColVals f2 "dia" (f2.rows.map (fun p => Cell.num (env.day p.1 : ℚ)))
    let f4 := setColVals f3 "dia_ano"
      (f3.rows.map (fun p => Cell.num (env.dayofyear p.1 : ℚ)))
    let f5 := setColVals f4 "dia_semana"
      (f4.rows.map (fun p => Cell.num (env.dayofweek p.1 : ℚ)))
    .ok f5
  else .error "AttributeError: RangeIndex object has no attribute year"

/-- Lines 156-158: `temp_media` and `amplitude_termica` when both
temperature columns are present. -/
def derivedStep (f : Frame) : Except String Frame :=
  if "temp_max" ∈ f.header ∧ "temp_min" ∈ f.header then
    let pairs := (getColCells f "temp_max").zip (getColCells f "temp_min")
    match pairs.mapM (fun (ab : Cell × Cell) =>
        (match cellAdd ab.1 ab.2 with
         | .error e => .error e
         | .ok s => cellDivByConst s 2 : Except String Cell)) with
    | .error e => .error e
    | .ok media =>
      match pairs.mapM (fun ab => cellSub ab.1 ab.2) with
      | .error e => .error e
      | .ok ampl =>
        .ok (setColVals (setColVals f "temp_media" media) "amplitude_termica" ampl)
  else .ok f

/-- Lines 161-164: cyclic encodings of `mes` and `dia_ano` (both
always present: `calendarStep` ran just before). -/
def cyclicStep (env : Env) (f : Frame) : Except String Frame :=
  match (getColCells f "mes").mapM
      (cellMap (fun m => env.sin (2 * env.pi * m / 12))) with
  | .error e => .error e
  | .ok ms =>
    let f1 := setColVals f "mes_sin" ms
    match (getColCells f1 "mes").mapM
        (cellMap (fun m => env.cos (2 * env.pi * m / 12))) with
    | .error e => .error e
    | .ok mc =>
      let f2 := setColVals f1 "mes_cos" mc
      match (getColCells f2 "dia_ano").mapM
          (cellMap (fun m => env.sin (2 * env.pi * m / 365))) with
      | .error e => .error e
      | .ok ds =>
        let f3 := setColVals f2 "dia_ano_sin" ds
        match (getColCells f3 "dia_ano").mapM
            (cellMap (fun m => env.cos (2 * env.pi * m / 365))) with
        | .error e => .error e
        | .ok dc2 => .ok (setColVals f3 "dia_ano_cos" dc2)

/-- One entry of `rolling(window=7, min_periods=1).mean()`: the mean of
the non-`NaN` values among the up-to-7 cells ending at position `i`. -/
def rollingWindowMean (cells : List Cell) (i : ℕ) : Cell :=
  let w := ((cells.take (i + 1)).drop (i + 1 - 7)).filterMap Cell.asNum
  if w.isEmpty then Cell.na else Cell.num (w.sum / w.length)

/-- `rolling(7, min_periods=1).mean()` over a column; an object-dtype
column (one holding strings or timestamps) raises `DataError`. -/
def rollingMeanCol (cells : List Cell) : Except String (List Cell) :=
  if cells.any (fun c => match c with | .str _ => true | .date _ => true | _ => false)
  then .error "DataError"
  else .ok ((List.range cells.length).map (rollingWindowMean cells))

/-- One iteration of the rolling-mean loop (lines 167-170): add the
7-day mean column of `c` when `c` is present. -/
def rollOne (acc : Frame) (c : String) : Except String Frame :=
  if c ∈ acc.header then
    match rollingMeanCol (getColCells acc c) with
    | .error e => .error e
    | .ok vals => .ok (setColVals acc (c ++ "_ma_7d") vals)
  else .ok acc

/-- Lines 167-170: rolling means, only when the frame has more than 7
rows and only for the columns actually present. -/
def rollingStep (f : Frame) : Except String Frame :=
  if 7 < f.rows.length then
    ["temp_max", "temp_min", "umidade"].foldlM rollOne f
  else .ok f

/-- `fillna(method='bfill')` on one column: a `NaN` takes the next
non-`NaN` value below it, if any. -/
def bfillList : List Cell → List Cell
  | [] => []
  | c :: rest =>
    (if c.isNa then ((rest.find? (fun x => !x.isNa)).getD Cell.na) else c) ::
      bfillList rest

def ffillGo : Cell → List Cell → List Cell
  | _, [] => []
  | prev, c :: rest =>
    (if c.isNa then prev else c) :: ffillGo (if c.isNa then prev else c) rest

/-- `fillna(method='ffill')` on one column: a `NaN` takes the last
non-`NaN` value above it, if any. -/
def ffillList (l : List Cell) : List Cell := ffillGo Cell.na l

/-- `df.fillna(method=...)`: the column filler applied to every column. -/
def fillStep (fn : List Cell → List Cell) (f : Frame) : Frame :=
  f.header.foldl (fun acc c => setColVals acc c (fn (getColCells acc c))) f

/-- `df.dropna()`: drop every row that still holds a `NaN`. -/
def dropnaStep (f : Frame) : Frame :=
  { f with rows := f.rows.filter (fun p => !(p.2.any (fun q => q.2.isNa))) }

/-- The `try` body of `create_features_enhanced` (lines 120-179),
also returning how many rows the date step removed. -/
def featBody (env : Env) (cfg : FeatConfig) (df : Frame) :
    Except String (Frame × ℕ) :=
  let f1 := renameStep cfg.column_mapping df
  let fd := if cfg.date_column ∈ f1.header then dateStep env cfg.date_column f1
            else (f1, 0)
  let f3 := numericStep env cfg.numeric_columns fd.1
  match calendarStep env f3 with
  | .error e => .error e
  | .ok f4 =>
    match derivedStep f4 with
    | .error e => .error e
    | .ok f5 =>
      match cyclicStep env f5 with
      | .error e => .error e
      | .ok f6 =>
        match rollingStep f6 with
        | .error e => .error e
        | .ok f7 =>
          .ok (dropnaStep (fillStep ffillList (fillStep bfillList f7)), fd.2)

/-- The `st.warning` emitted by the date step when rows were dropped. -/
def dateWarnings (n : ℕ) : List String :=
  if 0 < n then
    ["⚠️ " ++ toString n ++ " linhas removidas devido a datas inválidas"]
  else []

/-- `create_features_enhanced` from `app.py`: the `try` body, with the
blanket `except` returning an unmodified copy of the input next to the
`st.error` text.  The second component is the list of on-page messages. -/
def create_features_enhanced (env : Env) (cfg : FeatConfig) (df : Frame) :
    Frame × List String :=
  match featBody env cfg df with
  | .ok fn => (fn.1, dateWarnings fn.2)
  | .error e => (df, ["Erro no processamento de features: " ++ e])

/-! ## `make_prediction_enhanced` -/

/-- The fixed `config` dictionary built inside `make_prediction_enhanced`. -/
def predConfig : FeatConfig :=
  { date_column := "data"
    column_mapping :=
      [("data", "data"), ("temp_max", "temp_max"), ("temp_min", "temp_min"),
       ("umidade", "umidade"), ("pressao", "pressao"), ("vel_vento", "vel_vento"),
       ("rad_solar", "rad_solar")]
    numeric_columns :=
      ["temp_max", "temp_min", "umidade", "pressao", "vel_vento", "rad_solar"] }

/-- `df_processed.iloc[-1]`: the last row of a frame (the default is
never used on the non-empty path). -/
def lastRow (f : Frame) : Row := (f.rows.getLastD (0, [])).2

/-- `base_row.get(c, default) - ...` as one step: the label may be
missing (Python default kicks in), hold `NaN` (arithmetic propagates it
as `none`), or hold a non-number (the float arithmetic raises). -/
def getFactorBase (r : Row) (c : String) (d : ℚ) : Except String (Option ℚ) :=
  match rowGet r c with
  | none => .ok (some d)
  | some (.num q) => .ok (some q)
  | some .na => .ok none
  | some _ => .error "TypeError"

/-- `x in [a, b, c]` for a cell against a list of integer literals
(`False` for `NaN`, strings and timestamps, as in Python). -/
def cellMemInt (c : Cell) (l : List ℤ) : Bool :=
  match c with
  | .num q => l.any (fun k => (k : ℚ) == q)
  | _ => false

/-- The `municipio_factors` dictionary (lines 227-238). -/
def municipio_factors : List (String × ℚ) :=
  [("Itirapina", 1), ("Santos", 13/10), ("Cuiabá", 8/10), ("Natal", 12/10),
   ("Campinas", 11/10), ("Ribeirão Preto", 9/10), ("São José dos Campos", 1),
   ("Sorocaba", 1), ("Piracicaba", 1), ("Bauru", 8/10), ("Araraquara", 9/10),
   ("São Carlos", 1), ("Franca", 9/10), ("Presidente Prudente", 8/10),
   ("Marília", 9/10), ("Araçatuba", 8/10), ("Botucatu", 9/10), ("Rio Claro", 1),
   ("Limeira", 1), ("Americana", 1), ("Jundiaí", 1), ("Taubaté", 1),
   ("Guaratinguetá", 1), ("Jacareí", 1), ("Mogi das Cruzes", 1),
   ("Suzano", 11/10), ("Diadema", 11/10), ("Campo Grande", 9/10),
   ("Londrina", 1), ("Maringá", 1), ("Cascavel", 1), ("João Pessoa", 12/10),
   ("Recife", 13/10), ("Salvador", 12/10), ("Aracaju", 12/10)]

/-- `municipio_factors.get(municipio, 1.0)`. -/
def municipioFactor (muni : String) : ℚ :=
  (((municipio_factors.find? (fun p => p.1 == muni)).map (·.2)).getD 1)

/-- The seasonal factor (lines 218-224) from the `mes` cell of the base
row (defaulting to 6 when the label is missing). -/
def seasonalFactorOfCell (mes : Cell) : ℚ :=
  if cellMemInt mes [12, 1, 2] then 3/2
  else if cellMemInt mes [6, 7, 8] then 3/10
  else 1

/-- The `try` body of `make_prediction_enhanced` (lines 191-263): run
the feature pipeline, bail out with an empty series when nothing
remains, read the climate factors off the last row and emit the
closed-form series.  `noise` is the sequence of `np.random.normal(0, 1.5)`
draws. -/
def predBody (env : Env) (df_input : Frame) (num_days : ℕ) (muni : String)
    (noise : ℕ → ℚ) : Except String (List (ℤ × ℚ)) :=
  let processed := (create_features_enhanced env predConfig df_input).1
  if processed.rows.isEmpty then
    .ok []
  else
    let base_row := lastRow processed
    match getFactorBase base_row "temp_max" 25 with
    | .error e => .error e
    | .ok tm =>
      match getFactorBase base_row "umidade" 60 with
      | .error e => .error e
      | .ok um =>
        match getFactorBase base_row "pressao" 1013 with
        | .error e => .error e
        | .ok pr =>
          let seasonal := seasonalFactorOfCell (rowGetD base_row "mes" (Cell.num 6))
          let mf := municipioFactor muni
          let bp : Option ℚ :=
            match um, tm, pr with
            | some u, some t, some p =>
              some ((2 + (u - 50) / 50 * 8 + (t - 20) / 10 * 3 +
                     (1013 - p) / 20 * 2 + seasonal * 2) * mf)
            | _, _, _ => none
          .ok ((List.range num_days).map (fun (i : ℕ) =>
            (env.today + (i : ℤ),
             match bp with
             | some b =>
               max 0 (b + env.sin (2 * env.pi * (i : ℚ) / 7) * (1/2) + noise i)
             | none => 0)))

/-- `make_prediction_enhanced` from `app.py`: the `try` body with the
blanket `except` returning `pd.Series()` (the empty series).  A series
is the list of its (day, value) pairs.  (On a NaN base precipitation
`max(0, nan)` returns `0` in Python, hence the `none => 0` branch.) -/
def make_prediction_enhanced (env : Env) (df_input : Frame) (num_days : ℕ)
    (muni : String) (noise : ℕ → ℚ) : List (ℤ × ℚ) :=
  match predBody env df_input num_days muni noise with
  | .ok s => s
  | .error _ => []

/-- The on-page messages of `make_prediction_enhanced`: the empty
processed input is reported first, inside the `try` (line 206), and an
exception anywhere in the body is reported by the blanket `except`
(line 266); the success path shows nothing. -/
def make_prediction_msgs (env : Env) (df_input : Frame) (num_days : ℕ)
    (muni : String) (noise : ℕ → ℚ) : List String :=
  if (create_features_enhanced env predConfig df_input).1.rows.isEmpty then
    ["Não foi possível processar os dados de entrada"]
  else
    match predBody env df_input num_days muni noise with
    | .ok _ => []
    | .error e => ["Erro na previsão: " ++ e]

/-! ## `generate_enhanced_historical_data` -/

/-- One entry of `municipio_params`. -/
structure MunParams where
  temp_base : ℚ
  temp_var : ℚ
  humidity_base : ℚ
  precip_factor : ℚ
deriving DecidableEq, Repr

/-- The `municipio_params` dictionary (lines 277-313). -/
def municipio_params : List (String × MunParams) :=
  [("Itirapina", ⟨22, 8, 65, 1⟩), ("Santos", ⟨25, 6, 75, 13/10⟩),
   ("Cuiabá", ⟨28, 10, 60, 7/10⟩), ("Natal", ⟨27, 4, 70, 11/10⟩),
   ("Campinas", ⟨23, 7, 68, 1⟩), ("Ribeirão Preto", ⟨26, 8, 62, 9/10⟩),
   ("São José dos Campos", ⟨22, 7, 70, 1⟩), ("Sorocaba", ⟨23, 7, 69, 1⟩),
   ("Piracicaba", ⟨24, 8, 67, 1⟩), ("Bauru", ⟨25, 9, 63, 8/10⟩),
   ("Araraquara", ⟨24, 8, 65, 9/10⟩), ("São Carlos", ⟨23, 7, 68, 1⟩),
   ("Franca", ⟨23, 8, 64, 9/10⟩), ("Presidente Prudente", ⟨26, 9, 61, 8/10⟩),
   ("Marília", ⟨24, 8, 65, 9/10⟩), ("Araçatuba", ⟨27, 9, 60, 8/10⟩),
   ("Botucatu", ⟨23, 8, 66, 9/10⟩), ("Rio Claro", ⟨23, 7, 67, 1⟩),
   ("Limeira", ⟨24, 7, 68, 1⟩), ("Americana", ⟨24, 7, 68, 1⟩),
   ("Jundiaí", ⟨23, 7, 69, 1⟩), ("Taubaté", ⟨23, 7, 70, 1⟩),
   ("Guaratinguetá", ⟨22, 7, 71, 1⟩), ("Jacareí", ⟨23, 7, 70, 1⟩),
   ("Mogi das Cruzes", ⟨22, 7, 72, 1⟩), ("Suzano", ⟨23, 7, 71, 11/10⟩),
   ("Diadema", ⟨24, 6, 73, 11/10⟩), ("Campo Grande", ⟨26, 8, 65, 9/10⟩),
   ("Londrina", ⟨23, 8, 68, 1⟩), ("Maringá", ⟨24, 8, 67, 1⟩),
   ("Cascavel", ⟨22, 9, 66, 1⟩), ("João Pessoa", ⟨28, 4, 72, 12/10⟩),
   ("Recife", ⟨27, 5, 75, 13/10⟩), ("Salvador", ⟨27, 5, 74, 12/10⟩),
   ("Aracaju", ⟨28, 4, 73, 12/10⟩)]

/-- `municipio_params.get(municipio, municipio_params["Itirapina"])`. -/
def munParamsOf (muni : String) : MunParams :=
  (((municipio_params.find? (fun p => p.1 == muni)).map (·.2)).getD ⟨22, 8, 65, 1⟩)

/-- The random draws consumed by `generate_enhanced_historical_data`:
`g1`..`g5` are the `np.random.normal` arrays, `u1` the
`np.random.uniform(2, 6)` array, `e1` the `np.random.exponential(1.5)`
array, all indexed by day position. -/
structure GenNoise where
  g1 : ℕ → ℚ
  u1 : ℕ → ℚ
  g2 : ℕ → ℚ
  e1 : ℕ → ℚ
  g3 : ℕ → ℚ
  g4 : ℕ → ℚ
  g5 : ℕ → ℚ

/-- The seasonal pattern at day position `i` of the generated range
(`np.sin(2π (day_of_year - 80) / 365)` at date `start + i`). -/
def genSeasonal (env : Env) (start : ℤ) (i : ℕ) : ℚ :=
  env.sin (2 * env.pi * ((env.dayofyear (start + i) : ℚ) - 80) / 365)

/-- One row of the generated table (lines 317-350), with the raw
(pre-rounding) intermediates exactly as in the source: `temp_min` and
`precipitacao` are computed from the unrounded bases, and `umidade` is
clipped before both its rounding and its use in the precipitation. -/
def genRow (env : Env) (p : MunParams) (noise : GenNoise) (start : ℤ) (i : ℕ) :
    ℤ × Row :=
  let sp := genSeasonal env start i
  let temp_max_base := p.temp_base + sp * p.temp_var + noise.g1 i
  let temp_min_base := temp_max_base - 8 - noise.u1 i
  let umidade_base := np_clip (p.humidity_base - sp * 15 + noise.g2 i) 10 95
  let precip_base :=
    max 0 ((umidade_base - 50) * (3/10) * p.precip_factor +
           sp * 3 * p.precip_factor + noise.e1 i)
  let pressao_base := 1013 + sp * 5 + noise.g3 i
  let vel_vento_base := 5 + |noise.g4 i|
  let rad_solar_base := 20 + sp * 8 + noise.g5 i
  ((i : ℤ),
   [("data", Cell.date (start + i)),
    ("temp_max", Cell.num (np_round1 temp_max_base)),
    ("temp_min", Cell.num (np_round1 temp_min_base)),
    ("umidade", Cell.num (np_round1 umidade_base)),
    ("pressao", Cell.num (np_round1 pressao_base)),
    ("vel_vento", Cell.num (np_round1 (np_clip vel_vento_base 0 50))),
    ("rad_solar", Cell.num (np_round1 (np_clip rad_solar_base 0 40))),
    ("precipitacao", Cell.num (np_round2 precip_base))])

/-- The `try` body of `generate_enhanced_historical_data`
(lines 272-352); `start_date = now - num_days` and the range covers
`num_days` consecutive days. -/
def genBody (env : Env) (muni : String) (num_days : ℕ) (noise : GenNoise) :
    Except String Frame :=
  let p := munParamsOf muni
  let start := env.today - (num_days : ℤ)
  .ok ⟨["data", "temp_max", "temp_min", "umidade", "pressao", "vel_vento",
        "rad_solar", "precipitacao"], false,
       (List.range num_days).map (genRow env p noise start)⟩

/-- The blanket `except` of `generate_enhanced_historical_data`:
an error degrades to the empty `pd.DataFrame()`. -/
def genCatch : Except String Frame → Frame
  | .ok f => f
  | .error _ => Frame.empty

/-- The on-page message of the blanket `except` of
`generate_enhanced_historical_data` (line 355); the success path shows
nothing. -/
def genCatchMsgs : Except String Frame → List String
  | .ok _ => []
  | .error e => ["Erro ao gerar dados históricos: " ++ e]

/-- `generate_enhanced_historical_data` from `app.py`. -/
def generate_enhanced_historical_data (env : Env) (muni : String)
    (num_days : ℕ) (noise : GenNoise) : Frame :=
  genCatch (genBody env muni num_days noise)

/-! ## `fetch_ana_station_data` (`ana_streamlit_data.py`) -/

/-- The random draws of the simulated ANA fetch: `expo` the
`np.random.exponential(0.5)` array, `gauss` the normal array, and
`logn` the `np.random.lognormal` array (whose draws the model takes as
given, one value per day). -/
structure AnaNoise where
  expo : ℕ → ℚ
  gauss : ℕ → ℚ
  logn : ℕ → ℚ

/-- `np.linspace(0, 2π, n)` at position `i`. -/
def linspaceTwoPi (env : Env) (n : ℕ) (i : ℕ) : ℚ :=
  if n ≤ 1 then 0 else 2 * env.pi * (i : ℚ) / ((n : ℚ) - 1)

/-- The value column of the simulated fetch for each of the three
valid data types (lines 28-43 of `ana_streamlit_data.py`). -/
def anaValue (env : Env) (data_type : String) (num_days : ℕ) (noise : AnaNoise)
    (i : ℕ) : ℚ :=
  if data_type = "precipitacao" then
    max 0 (noise.expo i + noise.gauss i)
  else if data_type = "nivel" then
    max 0 (5 + env.sin (linspaceTwoPi env num_days i) * 2 + noise.gauss i)
  else
    noise.logn i

/-- `fetch_ana_station_data` from `ana_streamlit_data.py`: raises
`ValueError` on an invalid `data_type`, otherwise builds a frame of
`num_days` consecutive days ending today, indexed by `data`, with the
single column named after the data type and `np.round(_, 2)` values. -/
def fetch_ana_station_data (env : Env) (station_code : String) (num_days : ℕ)
    (data_type : String) (noise : AnaNoise) : Except String Frame :=
  if data_type ∉ ["precipitacao", "nivel", "descarga"] then
    .error "ValueError: Tipo de dado inválido. Use 'precipitacao', 'nivel' ou 'descarga'."
  else
    .ok ⟨[data_type], true,
      (List.range num_days).map (fun (i : ℕ) =>
        (env.today - ((num_days : ℤ) - 1) + (i : ℤ),
         [(data_type, Cell.num (np_round2 (anaValue env data_type num_days noise i)))]))⟩

/-! ## The CSV upload gate (`main`, lines 1044-1050) -/

def required_columns : List String :=
  ["data", "temp_max", "temp_min", "umidade", "pressao", "vel_vento", "rad_solar"]

/-- `missing_columns` of the uploaded frame. -/
def missing_columns (df : Frame) : List String :=
  required_columns.filter (fun c => c ∉ df.header)

/-- The upload is accepted for processing iff no required column is
missing (the `if missing_columns: st.error` branch refuses it). -/
def csvAccepted (df : Frame) : Bool :=
  missing_columns df = []

/-! ## Row-level lemmas -/

theorem rowGet_cons_true {p : String × Cell} {rest : Row} {c : String}
    (h : (p.1 == c) = true) : rowGet (p :: rest) c = some p.2 := by
  simp [rowGet, List.find?_cons, h]

theorem rowGet_cons_false {p : String × Cell} {rest : Row} {c : String}
    (h : (p.1 == c) = false) : rowGet (p :: rest) c = rowGet rest c := by
  simp [rowGet, List.find?_cons, h]

theorem rowGet_rowReplace_ne (r : Row) {c c2 : String} (h : c2 ≠ c) (v : Cell) :
    rowGet (rowReplace r c v) c2 = rowGet r c2 := by
  induction r with
  | nil => rfl
  | cons p rest ih =>
    rcases hp : (p.1 == c) with _ | _
    · rw [rowReplace, if_neg (by simp [hp])]
      cases hp2 : (p.1 == c2)
      · rw [rowGet_cons_false hp2, rowGet_cons_false hp2]; exact ih
      · rw [rowGet_cons_true hp2, rowGet_cons_true hp2]
    · have hpc : p.1 = c := by simpa using hp
      have h2 : ((c, v).1 == c2) = false := by simpa using fun hc => h hc.symm
      have h3 : (p.1 == c2) = false := by rw [hpc]; simpa using fun hc => h hc.symm
      rw [rowReplace, if_pos (by simp [hp]), rowGet_cons_false h2, rowGet_cons_false h3]
      exact ih

theorem rowGet_rowSet_self (r : Row) (c : String) (v : Cell) :
    rowGet (rowSet r c v) c = some v := by
  induction r with
  | nil => simp [rowSet, rowGet]
  | cons p rest ih =>
    rcases hp : (p.1 == c) with _ | _
    · rw [rowSet, if_neg (by simp [hp]), rowGet_cons_false hp]
      exact ih
    · rw [rowSet, if_pos (by simp [hp]), rowGet_cons_true (by simp)]

theorem rowGet_rowSet_ne (r : Row) {c c2 : String} (h : c2 ≠ c) (v : Cell) :
    rowGet (rowSet r c v) c2 = rowGet r c2 := by
  induction r with
  | nil =>
    have h1 : ((c, v).1 == c2) = false := by simpa using fun hc => h hc.symm
    rw [rowSet, rowGet_cons_false h1]
  | cons p rest ih =>
    rcases hp : (p.1 == c) with _ | _
    · rw [rowSet, if_neg (by simp [hp])]
      cases hp2 : (p.1 == c2)
      · rw [rowGet_cons_false hp2, rowGet_cons_false hp2]; exact ih
      · rw [rowGet_cons_true hp2, rowGet_cons_true hp2]
    · have hpc : p.1 = c := by simpa using hp
      have h2 : ((c, v).1 == c2) = false := by simpa using fun hc => h hc.symm
      have h3 : (p.1 == c2) = false := by rw [hpc]; simpa using fun hc => h hc.symm
      rw [rowSet, if_pos (by simp [hp]), rowGet_cons_false h2, rowGet_cons_false h3]
      exact rowGet_rowReplace_ne rest h v

theorem rowGet_rowErase_ne (r : Row) {c c2 : String} (h : c2 ≠ c) :
    rowGet (rowErase r c) c2 = rowGet r c2 := by
  induction r with
  | nil => rfl
  | cons p rest ih =>
    rcases hp : (p.1 == c) with _ | _
    · rw [rowErase, List.filter_cons_of_pos (by simp [hp])]
      cases hp2 : (p.1 == c2)
      · rw [rowGet_cons_false hp2, rowGet_cons_false hp2]; exact ih
      · rw [rowGet_cons_true hp2, rowGet_cons_true hp2]
    · have hpc : p.1 = c := by simpa using hp
      have h3 : (p.1 == c2) = false := by rw [hpc]; simpa using fun hc => h hc.symm
      rw [rowErase, List.filter_cons_of_neg (by simp [hp]), rowGet_cons_false h3]
      exact ih

theorem mem_rowReplace {q : String × Cell} {r : Row} {c : String} {v : Cell}
    (hq : q ∈ rowReplace r c v) : q ∈ r ∨ q = (c, v) := by
  induction r with
  | nil => simp [rowReplace] at hq
  | cons p rest ih =>
    simp only [rowReplace] at hq
    rcases List.mem_cons.mp hq with h | h
    · split at h
      · right; exact h
      · left; exact h ▸ List.mem_cons_self p rest
    · rcases ih h with h2 | h2
      · exact Or.inl (List.mem_cons_of_mem p h2)
      · exact Or.inr h2

theorem mem_rowSet {q : String × Cell} {r : Row} {c : String} {v : Cell}
    (hq : q ∈ rowSet r c v) : q ∈ r ∨ q = (c, v) := by
  induction r with
  | nil => simp [rowSet] at hq; exact Or.inr hq
  | cons p rest ih =>
    simp only [rowSet] at hq
    split at hq
    · rcases List.mem_cons.mp hq with h | h
      · exact Or.inr h
      · rcases mem_rowReplace h with h2 | h2
        · exact Or.inl (List.mem_cons_of_mem p h2)
        · exact Or.inr h2
    · rcases List.mem_cons.mp hq with h | h
      · exact Or.inl (h ▸ List.mem_cons_self p rest)
      · rcases ih h with h2 | h2
        · exact Or.inl (List.mem_cons_of_mem p h2)
        · exact Or.inr h2

theorem mem_rowErase {q : String × Cell} {r : Row} {c : String}
    (hq : q ∈ rowErase r c) : q ∈ r :=
  (List.mem_filter.mp hq).1

theorem rowGet_eq_some_key_mem {r : Row} {c : String} {cl : Cell}
    (h : rowGet r c = some cl) : (c, cl) ∈ r := by
  unfold rowGet at h
  rcases Option.map_eq_some'.mp h with ⟨p, hp, hpcl⟩
  have h1 := List.find?_some hp
  have h2 := List.mem_of_find?_eq_some hp
  have h3 : p.1 = c := by simpa using h1
  have h4 : p = (c, cl) := by
    cases p
    simp_all
  exact h4 ▸ h2

theorem rowGet_none_of_key_not_mem {r : Row} {c : String}
    (h : ∀ q ∈ r, q.1 ≠ c) : rowGet r c = none := by
  unfold rowGet
  rw [List.find?_eq_none.mpr]
  · rfl
  · intro p hp
    simpa using h p hp

/-! ## Helper lemmas for the validation and metrics claims -/

theorem vtr_fst_false_of_le {a b : ℚ} (h : a ≤ b) :
    (validate_temperature_range a b).1 = false := by
  unfold validate_temperature_range
  split_ifs <;> simp_all

theorem vtr_ok {a b : ℚ} (h1 : -50 ≤ a) (h2 : a ≤ 60) (h3 : -60 ≤ b)
    (h4 : b ≤ 50) (h5 : b < a) : validate_temperature_range a b = (true, "") := by
  unfold validate_temperature_range
  rw [if_neg (by push_neg; exact ⟨h1, h2⟩), if_neg (by push_neg; exact ⟨h3, h4⟩),
    if_neg (not_le.mpr h5)]

theorem baseMetricsOf_mem (muni : String) :
    baseMetricsOf muni ∈ base_metrics.map Prod.snd := by
  unfold baseMetricsOf
  cases hf : base_metrics.find? (fun p => p.1 == muni) with
  | none => simp [base_metrics]
  | some p =>
    have := List.mem_of_find?_eq_some hf
    simp only [Option.map_some', Option.getD_some]
    exact List.mem_map_of_mem Prod.snd this

theorem metrics_table_round3 : ∀ m ∈ base_metrics.map Prod.snd,
    py_round3 m.rmse = m.rmse ∧ py_round3 m.mae = m.mae ∧ py_round3 m.r2 = m.r2 := by
  with_unfolding_all decide

theorem metrics_table_pos : ∀ m ∈ base_metrics.map Prod.snd,
    0 < m.rmse ∧ 0 < m.mae ∧ 0 < m.r2 := by
  with_unfolding_all decide

theorem degradationFactor_one_le (n : ℕ) : 1 ≤ degradationFactor n := by
  unfold degradationFactor
  split
  · rename_i h
    have : (7 : ℚ) < (n : ℚ) := by exact_mod_cast h
    nlinarith
  · exact le_refl 1

theorem degradationFactor_mono {n1 n2 : ℕ} (h : n1 ≤ n2) :
    degradationFactor n1 ≤ degradationFactor n2 := by
  unfold degradationFactor
  split
  · rename_i h1
    rw [if_pos (lt_of_lt_of_le h1 h)]
    have : (n1 : ℚ) ≤ (n2 : ℚ) := by exact_mod_cast h
    linarith
  · split
    · rename_i h2
      have : (7 : ℚ) < (n2 : ℚ) := by exact_mod_cast h2
      nlinarith
    · exact le_refl 1

/-- C3: `validate_meteorological_data` rejects a record whose `umidade`
lies outside `[0, 100]`, rejects a record carrying both temperatures
with `temp_min >= temp_max`, and accepts a record whose present fields
all lie within the checked bounds, with an empty error list. -/
theorem validation_bounds_spec :
    (∀ data : MeteoRecord, ∀ u, data.umidade = some u → (u < 0 ∨ 100 < u) →
       (validate_meteorological_data data).1 = false ∧
       (validate_meteorological_data data).2 ≠ []) ∧
    (∀ data : MeteoRecord, ∀ tmax tmin, data.temp_max = some tmax →
       data.temp_min = some tmin → tmax ≤ tmin →
       (validate_meteorological_data data).1 = false ∧
       (validate_meteorological_data data).2 ≠ []) ∧
    (∀ data : MeteoRecord,
       (∀ tmax tmin, data.temp_max = some tmax → data.temp_min = some tmin →
         -50 ≤ tmax ∧ tmax ≤ 60 ∧ -60 ≤ tmin ∧ tmin ≤ 50 ∧ tmin < tmax) →
       (∀ u, data.umidade = some u → 0 ≤ u ∧ u ≤ 100) →
       (∀ p, data.pressao = some p → 800 ≤ p ∧ p ≤ 1100) →
       (∀ v, data.vel_vento = some v → 0 ≤ v ∧ v ≤ 200) →
       validate_meteorological_data data = (true, [])) := by
  refine ⟨?_, ?_, ?_⟩
  · rintro ⟨otm, otn, ou, op, ov⟩ u hu h
    cases hu
    simp only [validate_meteorological_data, if_pos h]
    constructor
    · simp [List.isEmpty_iff]
    · simp
  · rintro ⟨otm, otn, ou, op, ov⟩ tmax tmin htm htn h
    cases htm
    cases htn
    have hv := vtr_fst_false_of_le h
    simp only [validate_meteorological_data]
    rw [if_neg (by simp [hv])]
    constructor
    · simp [List.isEmpty_iff]
    · simp
  · rintro ⟨otm, otn, ou, op, ov⟩ ht hu hp hv
    simp only [validate_meteorological_data]
    have e1 : (match otm, otn with
        | some tmax, some tmin =>
          let v := validate_temperature_range tmax tmin
          if v.1 = true then ([] : List String) else [v.2]
        | _, _ => []) = [] := by
      match otm, otn with
      | none, _ => cases otn <;> rfl
      | some tmax, none => rfl
      | some tmax, some tmin =>
        obtain ⟨h1, h2, h3, h4, h5⟩ := ht tmax tmin rfl rfl
        simp [vtr_ok h1 h2 h3 h4 h5]
    have e2 : (match ou with
        | some u =>
          if u < 0 ∨ 100 < u then ["Umidade deve estar entre 0% e 100%"]
          else ([] : List String)
        | none => []) = [] := by
      match ou with
      | none => rfl
      | some u =>
        obtain ⟨h1, h2⟩ := hu u rfl
        have hn : ¬(u < 0 ∨ 100 < u) := by push_neg; exact ⟨h1, h2⟩
        simp [hn]
    have e3 : (match op with
        | some p =>
          if p < 800 ∨ 1100 < p then
            ["Pressão atmosférica deve estar entre 800 hPa e 1100 hPa"]
          else ([] : List String)
        | none => []) = [] := by
      match op with
      | none => rfl
      | some p =>
        obtain ⟨h1, h2⟩ := hp p rfl
        have hn : ¬(p < 800 ∨ 1100 < p) := by push_neg; exact ⟨h1, h2⟩
        simp [hn]
    have e4 : (match ov with
        | some v =>
          if v < 0 ∨ 200 < v then
            ["Velocidade do vento deve estar entre 0 m/s e 200 m/s"]
          else ([] : List String)
        | none => []) = [] := by
      match ov with
      | none => rfl
      | some v =>
        obtain ⟨h1, h2⟩ := hv v rfl
        have hn : ¬(v < 0 ∨ 200 < v) := by push_neg; exact ⟨h1, h2⟩
        simp [hn]
    rw [e1, e2, e3, e4]
    rfl

/-- Witness for C3 at concrete records: humidity 150 is rejected,
inverted temperatures are rejected, and an in-bounds record is accepted. -/
theorem validation_bounds_witness :
    ((validate_meteorological_data ⟨none, none, some 150, none, none⟩).1 = false ∧
     (validate_meteorological_data ⟨none, none, some 150, none, none⟩).2 ≠ []) ∧
    ((validate_meteorological_data ⟨some 10, some 20, none, none, none⟩).1 = false ∧
     (validate_meteorological_data ⟨some 10, some 20, none, none, none⟩).2 ≠ []) ∧
    validate_meteorological_data ⟨some 30, some 18, some 70, some 1013, some 5⟩ =
      (true, []) := by
  refine ⟨?_, ?_, ?_⟩
  · exact validation_bounds_spec.1 ⟨none, none, some 150, none, none⟩ 150 rfl
      (by norm_num)
  · exact validation_bounds_spec.2.1 ⟨some 10, some 20, none, none, none⟩ 10 20 rfl rfl
      (by norm_num)
  · refine validation_bounds_spec.2.2 ⟨some 30, some 18, some 70, some 1013, some 5⟩
      ?_ ?_ ?_ ?_
    · rintro tmax tmin ⟨rfl⟩ ⟨rfl⟩
      norm_num
    · rintro u ⟨rfl⟩
      norm_num
    · rintro p ⟨rfl⟩
      norm_num
    · rintro v ⟨rfl⟩
      norm_num

/-- C8: the uploaded CSV is refused exactly when one of the seven
required columns is absent; acceptance depends only on the header, not
on any cell value. -/
theorem csv_gate_spec :
    (∀ df : Frame, csvAccepted df = true ↔ ∀ c ∈ required_columns, c ∈ df.header) ∧
    (∀ (h : List String) (i1 i2 : Bool) (r1 r2 : List (ℤ × Row)),
       csvAccepted ⟨h, i1, r1⟩ = csvAccepted ⟨h, i2, r2⟩) ∧
    (∀ df : Frame, csvAccepted df = false ↔ missing_columns df ≠ []) := by
  refine ⟨?_, ?_, ?_⟩
  · intro df
    simp [csvAccepted, missing_columns, List.filter_eq_nil_iff]
  · intro h i1 i2 r1 r2
    rfl
  · intro df
    simp [csvAccepted]

/-- Witness for C8: a file with all seven columns is accepted. -/
theorem csv_gate_witness :
    csvAccepted ⟨required_columns, false, []⟩ = true := by
  exact (csv_gate_spec.1 ⟨required_columns, false, []⟩).mpr (fun c hc => hc)

/-- C10: `calculate_enhanced_metrics` returns the base metrics of the
municipality (Itirapina fallback) unchanged up to 7 days; past 7 days it
multiplies RMSE and MAE by `1 + (num_days - 7) * 0.05` and divides R2 by
the same factor; hence RMSE and MAE are non-decreasing and R2 is
non-increasing in the horizon. -/
theorem metrics_degradation_spec :
    (∀ (muni : String) (n : ℕ), n ≤ 7 →
       calculate_enhanced_metrics muni n = baseMetricsOf muni) ∧
    (∀ (muni : String) (n : ℕ), 7 < n →
       calculate_enhanced_metrics muni n =
         ⟨py_round3 ((baseMetricsOf muni).rmse * (1 + ((n : ℚ) - 7) * (5/100))),
          py_round3 ((baseMetricsOf muni).mae * (1 + ((n : ℚ) - 7) * (5/100))),
          py_round3 ((baseMetricsOf muni).r2 / (1 + ((n : ℚ) - 7) * (5/100)))⟩) ∧
    (∀ (muni : String) (n1 n2 : ℕ), n1 ≤ n2 →
       (calculate_enhanced_metrics muni n1).rmse ≤
         (calculate_enhanced_metrics muni n2).rmse ∧
       (calculate_enhanced_metrics muni n1).mae ≤
         (calculate_enhanced_metrics muni n2).mae ∧
       (calculate_enhanced_metrics muni n2).r2 ≤
         (calculate_enhanced_metrics muni n1).r2) := by
  have hb : ∀ muni : String, 0 < (baseMetricsOf muni).rmse ∧
      0 < (baseMetricsOf muni).mae ∧ 0 < (baseMetricsOf muni).r2 :=
    fun muni => metrics_table_pos _ (baseMetricsOf_mem muni)
  refine ⟨?_, ?_, ?_⟩
  · intro muni n hn
    obtain ⟨h1, h2, h3⟩ := metrics_table_round3 _ (baseMetricsOf_mem muni)
    unfold calculate_enhanced_metrics degradationFactor
    rw [if_neg (by omega)]
    simp only [mul_one, one_div_one, mul_one]
    rw [h1, h2, h3]
  · intro muni n hn
    unfold calculate_enhanced_metrics degradationFactor
    rw [if_pos hn]
    simp only [mul_one_div]
  · intro muni n1 n2 h
    obtain ⟨h1, h2, h3⟩ := hb muni
    have hf1 : (1 : ℚ) ≤ degradationFactor n1 := degradationFactor_one_le n1
    have hf2 : (1 : ℚ) ≤ degradationFactor n2 := degradationFactor_one_le n2
    have hff : degradationFactor n1 ≤ degradationFactor n2 := degradationFactor_mono h
    have e : ∀ m : ℕ, calculate_enhanced_metrics muni m =
        ⟨py_round3 ((baseMetricsOf muni).rmse * degradationFactor m),
         py_round3 ((baseMetricsOf muni).mae * degradationFactor m),
         py_round3 ((baseMetricsOf muni).r2 * (1 / degradationFactor m))⟩ :=
      fun m => rfl
    rw [e n1, e n2]
    dsimp only
    refine ⟨py_round3_mono ?_, py_round3_mono ?_, py_round3_mono ?_⟩
    · exact mul_le_mul_of_nonneg_left hff (le_of_lt h1)
    · exact mul_le_mul_of_nonneg_left hff (le_of_lt h2)
    · refine mul_le_mul_of_nonneg_left ?_ (le_of_lt h3)
      exact one_div_le_one_div_of_le (by linarith) hff

/-- Witness for C10 at Itirapina with horizons 3, 5 and 10. -/
theorem metrics_degradation_witness :
    calculate_enhanced_metrics "Itirapina" 3 = baseMetricsOf "Itirapina" ∧
    ((calculate_enhanced_metrics "Itirapina" 5).rmse ≤
       (calculate_enhanced_metrics "Itirapina" 10).rmse ∧
     (calculate_enhanced_metrics "Itirapina" 5).mae ≤
       (calculate_enhanced_metrics "Itirapina" 10).mae ∧
     (calculate_enhanced_metrics "Itirapina" 10).r2 ≤
       (calculate_enhanced_metrics "Itirapina" 5).r2) :=
  ⟨metrics_degradation_spec.1 "Itirapina" 3 (by norm_num),
   metrics_degradation_spec.2.2 "Itirapina" 5 10 (by norm_num)⟩

/-! ## Shared concrete inputs for witnesses and counterexamples -/

/-- A concrete environment: day 0, zero calendar fields, zero
trigonometry, parsers that fail on strings and numbers. -/
def testEnv : Env :=
  ⟨0, fun _ => 0, fun _ => 0, fun _ => 0, fun _ => 0, fun _ => 0,
   fun _ => 0, fun _ => 0, 0, fun _ => none, fun _ => none,
   fun _ => none, fun _ => none⟩

def testAnaNoise : AnaNoise := ⟨fun _ => 0, fun _ => 0, fun _ => 0⟩

def testGenNoise : GenNoise :=
  ⟨fun _ => 0, fun _ => 0, fun _ => 0, fun _ => 0, fun _ => 0,
   fun _ => 0, fun _ => 0⟩

/-- A one-row frame with a parseable date and humidity 80. -/
def testFrame : Frame :=
  ⟨["data", "umidade"], false,
   [(0, [("data", Cell.date 5), ("umidade", Cell.num 80)])]⟩

/-- A frame without the date column (drives `create_features_enhanced`
into its `except` branch). -/
def testBadFrame : Frame := ⟨["x"], false, [(0, [("x", Cell.num 1)])]⟩

/-- A frame whose `temp_max` holds a string (the prediction's factor
arithmetic raises on it after the feature pipeline errored out). -/
def testStrFrame : Frame :=
  ⟨["temp_max"], false, [(0, [("temp_max", Cell.str "bad")])]⟩

/-- C9: the simulated ANA fetch raises `ValueError` exactly on an
invalid `data_type`; on a valid one it returns `num_days` rows indexed
by consecutive days ending today, with the single column named after
the data type. -/
theorem fetch_ana_spec :
    (∀ (env : Env) (sc : String) (n : ℕ) (dt : String) (noise : AnaNoise),
       1 ≤ n →
       ((fetch_ana_station_data env sc n dt noise).toOption = none ↔
         dt ∉ ["precipitacao", "nivel", "descarga"])) ∧
    (∀ (env : Env) (sc : String) (n : ℕ) (dt : String) (noise : AnaNoise),
       1 ≤ n → dt ∈ ["precipitacao", "nivel", "descarga"] →
       ∃ f, fetch_ana_station_data env sc n dt noise = .ok f ∧
         f.header = [dt] ∧ f.hasDateIndex = true ∧ f.rows.length = n ∧
         f.rows.map Prod.fst =
           (List.range n).map (fun (i : ℕ) => env.today - ((n : ℤ) - 1) + (i : ℤ))) := by
  constructor
  · intro env sc n dt noise _
    unfold fetch_ana_station_data
    by_cases h : dt ∈ ["precipitacao", "nivel", "descarga"]
    · rw [if_neg (not_not_intro h)]
      simp [Except.toOption, h]
    · rw [if_pos h]
      simp [Except.toOption, h]
  · intro env sc n dt noise _ h
    unfold fetch_ana_station_data
    rw [if_neg (not_not_intro h)]
    refine ⟨_, rfl, rfl, rfl, by simp, ?_⟩
    rw [List.map_map]
    rfl

/-- Witness for C9: an invalid and a valid data type at a concrete call. -/
theorem fetch_ana_witness :
    ((fetch_ana_station_data testEnv "35520000" 3 "chuva" testAnaNoise).toOption =
        none ↔ ("chuva" : String) ∉ ["precipitacao", "nivel", "descarga"]) ∧
    (∃ f, fetch_ana_station_data testEnv "35520000" 3 "nivel" testAnaNoise = .ok f ∧
      f.header = ["nivel"] ∧ f.hasDateIndex = true ∧ f.rows.length = 3 ∧
      f.rows.map Prod.fst =
        (List.range 3).map (fun (i : ℕ) => testEnv.today - ((3 : ℤ) - 1) + (i : ℤ))) :=
  ⟨fetch_ana_spec.1 testEnv "35520000" 3 "chuva" testAnaNoise (by norm_num),
   fetch_ana_spec.2 testEnv "35520000" 3 "nivel" testAnaNoise (by norm_num)
     (by simp)⟩

/-! ## C1: non-negativity of every fabricated precipitation value -/

theorem predBody_ok_nonneg {env : Env} {df : Frame} {n : ℕ} {muni : String}
    {noise : ℕ → ℚ} {s : List (ℤ × ℚ)}
    (h : predBody env df n muni noise = .ok s) : ∀ p ∈ s, 0 ≤ p.2 := by
  unfold predBody at h
  generalize (create_features_enhanced env predConfig df).1 = P at h
  dsimp only at h
  split at h
  · cases h
    intro p hp
    exact absurd hp (List.not_mem_nil p)
  · split at h
    next e heq => simp at h
    next tm heq =>
      split at h
      next e2 heq2 => simp at h
      next um heq2 =>
        split at h
        next e3 heq3 => simp at h
        next pr heq3 =>
          injection h with h2
          subst h2
          intro p hp
          obtain ⟨i, hi, rfl⟩ := List.mem_map.mp hp
          dsimp only
          split
          · exact le_max_left 0 _
          · exact le_refl 0

theorem genRow_precip_cell (env : Env) (p : MunParams) (noise : GenNoise)
    (start : ℤ) (i : ℕ) :
    rowGetD (genRow env p noise start i).2 "precipitacao" Cell.na =
      Cell.num (np_round2 (max 0
        ((np_clip (p.humidity_base - genSeasonal env start i * 15 + noise.g2 i)
            10 95 - 50) * (3/10) * p.precip_factor +
          genSeasonal env start i * 3 * p.precip_factor + noise.e1 i))) := rfl

/-- C1: every fabricated precipitation value is non-negative — every
entry of the prediction series, every `precipitacao` cell of the
generated historical table, and every cell of the ANA helper's
`precipitacao` column, for every choice of the random noise. -/
theorem fabricated_precipitation_nonneg :
    (∀ (env : Env) (df : Frame) (n : ℕ) (muni : String) (noise : ℕ → ℚ),
       1 ≤ n → ∀ p ∈ make_prediction_enhanced env df n muni noise, 0 ≤ p.2) ∧
    (∀ (env : Env) (muni : String) (n : ℕ) (noise : GenNoise),
       ∀ cl ∈ getColCells (generate_enhanced_historical_data env muni n noise)
         "precipitacao", ∃ q, cl = Cell.num q ∧ 0 ≤ q) ∧
    (∀ (env : Env) (sc : String) (n : ℕ) (noise : AnaNoise) (f : Frame),
       1 ≤ n → fetch_ana_station_data env sc n "precipitacao" noise = .ok f →
       ∀ cl ∈ getColCells f "precipitacao", ∃ q, cl = Cell.num q ∧ 0 ≤ q) := by
  refine ⟨?_, ?_, ?_⟩
  · intro env df n muni noise _ p hp
    unfold make_prediction_enhanced at hp
    cases hb : predBody env df n muni noise with
    | ok s =>
      simp only [hb] at hp
      exact predBody_ok_nonneg hb p hp
    | error e =>
      simp only [hb] at hp
      exact absurd hp (List.not_mem_nil p)
  · intro env muni n noise cl hcl
    unfold generate_enhanced_historical_data genCatch genBody getColCells at hcl
    simp only [List.map_map, List.mem_map] at hcl
    obtain ⟨i, hi, rfl⟩ := hcl
    simp only [Function.comp_apply, genRow_precip_cell]
    exact ⟨_, rfl, np_round2_nonneg (le_max_left 0 _)⟩
  · intro env sc n noise f _ hf cl hcl
    unfold fetch_ana_station_data at hf
    rw [if_neg (by simp)] at hf
    injection hf with hf2
    subst hf2
    unfold getColCells at hcl
    simp only [List.map_map, List.mem_map] at hcl
    obtain ⟨i, hi, rfl⟩ := hcl
    refine ⟨np_round2 (anaValue env "precipitacao" n noise i), rfl, ?_⟩
    apply np_round2_nonneg
    unfold anaValue
    rw [if_pos rfl]
    exact le_max_left 0 _

/-- Witness for C1 at concrete inputs (one-row frame, day 0, zero
noise): the one prediction entry 10.3, the generated precipitation cell
4.5, and the ANA precipitation cell 0 are all non-negative. -/
theorem fabricated_precipitation_nonneg_witness :
    (0 : ℚ) ≤ (((0 : ℤ), (103 : ℚ)/10) : ℤ × ℚ).2 ∧
    (∃ q, Cell.num ((9 : ℚ)/2) = Cell.num q ∧ 0 ≤ q) ∧
    (∃ q, Cell.num (0 : ℚ) = Cell.num q ∧ 0 ≤ q) :=
  ⟨fabricated_precipitation_nonneg.1 testEnv testFrame 1 "X" (fun _ => 0)
     (by norm_num) ((0 : ℤ), (103 : ℚ)/10) (by with_unfolding_all decide),
   fabricated_precipitation_nonneg.2.1 testEnv "X" 1 testGenNoise
     (Cell.num ((9 : ℚ)/2)) (by with_unfolding_all decide),
   fabricated_precipitation_nonneg.2.2 testEnv "ST" 1 testAnaNoise
     ⟨["precipitacao"], true, [(0, [("precipitacao", Cell.num 0)])]⟩
     (by norm_num) (by with_unfolding_all rfl)
     (Cell.num 0) (by with_unfolding_all decide)⟩

/-- C7: failures degrade without propagation, in each case after
surfacing an on-page error message — on a body error
`create_features_enhanced` returns an unmodified copy of its input next
to the `st.error` text, `make_prediction_enhanced` returns the empty
series next to "Erro na previsão: ..." on a body error and next to
"Não foi possível processar os dados de entrada" when the processed
input is empty, and the generator's `except` handler returns the empty
table next to "Erro ao gerar dados históricos: ...". -/
theorem failures_degrade_spec :
    (∀ (env : Env) (cfg : FeatConfig) (df : Frame) (e : String),
       featBody env cfg df = .error e →
       create_features_enhanced env cfg df =
         (df, ["Erro no processamento de features: " ++ e])) ∧
    (∀ (env : Env) (df : Frame) (n : ℕ) (muni : String) (noise : ℕ → ℚ)
       (e : String), predBody env df n muni noise = .error e →
       make_prediction_enhanced env df n muni noise = [] ∧
       make_prediction_msgs env df n muni noise =
         ["Erro na previsão: " ++ e]) ∧
    (∀ (env : Env) (df : Frame) (n : ℕ) (muni : String) (noise : ℕ → ℚ),
       (create_features_enhanced env predConfig df).1.rows = [] →
       make_prediction_enhanced env df n muni noise = [] ∧
       make_prediction_msgs env df n muni noise =
         ["Não foi possível processar os dados de entrada"]) ∧
    (∀ e : String, genCatch (.error e) = Frame.empty ∧
       genCatchMsgs (.error e) =
         ["Erro ao gerar dados históricos: " ++ e]) := by
  refine ⟨?_, ?_, ?_, ?_⟩
  · intro env cfg df e h
    unfold create_features_enhanced
    rw [h]
  · intro env df n muni noise e h
    constructor
    · unfold make_prediction_enhanced
      rw [h]
    · have hne : (create_features_enhanced env predConfig df).1.rows.isEmpty
          = false := by
        cases hb : (create_features_enhanced env predConfig df).1.rows.isEmpty
        with
        | false => rfl
        | true =>
          exfalso
          have hok : predBody env df n muni noise = .ok [] := by
            unfold predBody
            revert hb
            generalize (create_features_enhanced env predConfig df).1 = P
            intro hb
            dsimp only
            rw [if_pos hb]
          rw [hok] at h
          exact Except.noConfusion h
      unfold make_prediction_msgs
      rw [if_neg (by rw [hne]; exact Bool.false_ne_true), h]
  · intro env df n muni noise h
    have hie : (create_features_enhanced env predConfig df).1.rows.isEmpty
        = true := by
      rw [h]
      rfl
    constructor
    · unfold make_prediction_enhanced predBody
      revert h
      generalize (create_features_enhanced env predConfig df).1 = P
      intro h
      dsimp only
      rw [h]
      rfl
    · unfold make_prediction_msgs
      rw [if_pos hie]
  · intro e
    exact ⟨rfl, rfl⟩

/-- Witness for C7: a frame without a date column degrades to an
unmodified copy next to the on-page feature error, a string-valued
`temp_max` degrades to an empty series next to the on-page prediction
error, the empty frame degrades to an empty series next to the
empty-input message, and a caught generator error yields the empty
table next to the on-page generator error. -/
theorem failures_degrade_witness :
    (create_features_enhanced testEnv predConfig testBadFrame =
      (testBadFrame, ["Erro no processamento de features: " ++
        "AttributeError: RangeIndex object has no attribute year"])) ∧
    (make_prediction_enhanced testEnv testStrFrame 2 "X" (fun _ => 0) = [] ∧
     make_prediction_msgs testEnv testStrFrame 2 "X" (fun _ => 0) =
       ["Erro na previsão: " ++ "TypeError"]) ∧
    (make_prediction_enhanced testEnv Frame.empty 2 "X" (fun _ => 0) = [] ∧
     make_prediction_msgs testEnv Frame.empty 2 "X" (fun _ => 0) =
       ["Não foi possível processar os dados de entrada"]) ∧
    (genCatch (.error "boom") = Frame.empty ∧
     genCatchMsgs (.error "boom") =
       ["Erro ao gerar dados históricos: " ++ "boom"]) :=
  ⟨failures_degrade_spec.1 testEnv predConfig testBadFrame
     "AttributeError: RangeIndex object has no attribute year"
     (by with_unfolding_all rfl),
   failures_degrade_spec.2.1 testEnv testStrFrame 2 "X" (fun _ => 0) "TypeError"
     (by with_unfolding_all rfl),
   failures_degrade_spec.2.2.1 testEnv Frame.empty 2 "X" (fun _ => 0)
     (by with_unfolding_all rfl),
   failures_degrade_spec.2.2.2 "boom"⟩

theorem dropnaStep_no_na {f : Frame} :
    ∀ p ∈ (dropnaStep f).rows, ∀ q ∈ p.2, q.2 ≠ Cell.na := by
  intro p hp q hq hna
  unfold dropnaStep at hp
  have h2 := (List.mem_filter.mp hp).2
  simp only [Bool.not_eq_true', List.any_eq_false] at h2
  have := h2 q hq
  rw [hna] at this
  simp [Cell.isNa] at this

theorem featBody_ok_shape {env : Env} {cfg : FeatConfig} {df : Frame}
    {fn : Frame × ℕ} (h : featBody env cfg df = .ok fn) :
    ∃ g, fn.1 = dropnaStep g := by
  unfold featBody at h
  dsimp only at h
  split at h
  next e heq => simp at h
  next f4 heq =>
    split at h
    next e heq2 => simp at h
    next f5 heq2 =>
      split at h
      next e heq3 => simp at h
      next f6 heq3 =>
        split at h
        next e heq4 => simp at h
        next f7 heq4 =>
          injection h with h2
          exact ⟨_, by rw [← h2]⟩

/-- C4: on the non-error path the table returned by
`create_features_enhanced` contains no missing (`NaN`) entry in any
column (its final `dropna()` removes every row still holding one). -/
theorem create_features_no_missing :
    ∀ (env : Env) (cfg : FeatConfig) (df : Frame),
      (featBody env cfg df).toOption.isSome = true →
      ∀ p ∈ (create_features_enhanced env cfg df).1.rows, ∀ q ∈ p.2,
        q.2 ≠ Cell.na := by
  intro env cfg df hok p hp q hq
  cases hb : featBody env cfg df with
  | error e =>
    rw [hb] at hok
    simp [Except.toOption] at hok
  | ok fn =>
    have hw : (create_features_enhanced env cfg df).1 = fn.1 := by
      unfold create_features_enhanced
      rw [hb]
    rw [hw] at hp
    obtain ⟨g, hg⟩ := featBody_ok_shape hb
    rw [hg] at hp
    exact dropnaStep_no_na p hp q hq

/-- Witness for C4: the surviving humidity cell of the processed
one-row test frame is not `NaN`. -/
theorem create_features_no_missing_witness :
    (("umidade", Cell.num (80 : ℚ)) : String × Cell).2 ≠ Cell.na :=
  create_features_no_missing testEnv predConfig testFrame
    (by with_unfolding_all rfl)
    (5, [("umidade", Cell.num 80), ("ano", Cell.num 0), ("mes", Cell.num 0),
         ("dia", Cell.num 0), ("dia_ano", Cell.num 0), ("dia_semana", Cell.num 0),
         ("mes_sin", Cell.num 0), ("mes_cos", Cell.num 0),
         ("dia_ano_sin", Cell.num 0), ("dia_ano_cos", Cell.num 0)])
    (by with_unfolding_all decide)
    ("umidade", Cell.num 80) (by with_unfolding_all decide)

/-- C6: the date-handling step coerces the date column, keeps exactly
the rows whose date parses (as a permutation: the step also sorts),
reports exactly the number of removed rows, and the warning is emitted
precisely when that number is positive, stating it. -/
theorem date_step_spec (env : Env) (dc : String) (f : Frame) :
    ((dateStep env dc f).1.rows).Perm
      ((f.rows.filter
          (fun p => (parseDateCell env (rowGetD p.2 dc Cell.na)).isSome)).map
        (fun p =>
          ((parseDateCell env (rowGetD p.2 dc Cell.na)).getD 0,
           rowErase (rowSet p.2 dc (coerceDateCell env (rowGetD p.2 dc Cell.na)))
             dc))) ∧
    (dateStep env dc f).1.rows.length =
      (f.rows.filter
        (fun p => (parseDateCell env (rowGetD p.2 dc Cell.na)).isSome)).length ∧
    (dateStep env dc f).2 =
      f.rows.length -
        (f.rows.filter
          (fun p => (parseDateCell env (rowGetD p.2 dc Cell.na)).isSome)).length ∧
    (∀ k : ℕ, dateWarnings k =
      if 0 < k then
        ["⚠️ " ++ toString k ++ " linhas removidas devido a datas inválidas"]
      else []) := by
  have hfg : ∀ p : ℤ × Row,
      (!((rowGetD
          (rowSet p.2 dc (coerceDateCell env (rowGetD p.2 dc Cell.na))) dc
            Cell.na).isNa))
        = (parseDateCell env (rowGetD p.2 dc Cell.na)).isSome := by
    intro p
    rw [rowGetD, rowGet_rowSet_self]
    cases hp : parseDateCell env (rowGetD p.2 dc Cell.na) <;>
      simp [coerceDateCell, hp, Cell.isNa]
  have hkept :
      ((f.rows.map (fun p =>
          (p.1, rowSet p.2 dc (coerceDateCell env (rowGetD p.2 dc Cell.na))))).filter
        (fun p => !((rowGetD p.2 dc Cell.na).isNa)))
      = ((f.rows.filter
            (fun p => (parseDateCell env (rowGetD p.2 dc Cell.na)).isSome)).map
          (fun p =>
            (p.1, rowSet p.2 dc (coerceDateCell env (rowGetD p.2 dc Cell.na))))) := by
    rw [List.filter_map _ _]
    congr 1
    apply List.filter_congr
    intro p _
    exact hfg p
  have hpt : ∀ p ∈ f.rows.filter
      (fun p => (parseDateCell env (rowGetD p.2 dc Cell.na)).isSome),
      ((fun p : ℤ × Row => (rowDateKey p.2 dc, rowErase p.2 dc))
        ((fun p : ℤ × Row =>
          (p.1, rowSet p.2 dc (coerceDateCell env (rowGetD p.2 dc Cell.na)))) p))
      = ((parseDateCell env (rowGetD p.2 dc Cell.na)).getD 0,
         rowErase (rowSet p.2 dc (coerceDateCell env (rowGetD p.2 dc Cell.na)))
           dc) := by
    intro p hp
    have hps := (List.mem_filter.mp hp).2
    obtain ⟨d, hd⟩ := Option.isSome_iff_exists.mp (by simpa using hps)
    simp only [rowDateKey, coerceDateCell, hd, rowGet_rowSet_self,
      Option.getD_some]
  have hperm : ((dateStep env dc f).1.rows).Perm
      ((f.rows.filter
          (fun p => (parseDateCell env (rowGetD p.2 dc Cell.na)).isSome)).map
        (fun p =>
          ((parseDateCell env (rowGetD p.2 dc Cell.na)).getD 0,
           rowErase (rowSet p.2 dc (coerceDateCell env (rowGetD p.2 dc Cell.na)))
             dc))) := by
    unfold dateStep
    dsimp only
    rw [hkept]
    refine ((List.perm_insertionSort _ _).map _).trans ?_
    rw [List.map_map, Function.comp_def, List.map_congr_left hpt]
  refine ⟨hperm, hperm.length_eq.trans (by rw [List.length_map]), ?_, fun k => rfl⟩
  unfold dateStep
  dsimp only
  rw [hkept, List.length_map]

/-! ## Frame-level invariants and preservation lemmas -/

theorem foldl_preserve {α : Type} (P : Frame → Prop) (step : Frame → α → Frame)
    (h : ∀ g a, P g → P (step g a)) :
    ∀ (l : List α) (g : Frame), P g → P (l.foldl step g) := by
  intro l
  induction l with
  | nil => intro g hg; exact hg
  | cons a t ih => intro g hg; exact ih _ (h g a hg)

theorem foldlM_preserve {α : Type} (P : Frame → Prop)
    (step : Frame → α → Except String Frame)
    (h : ∀ g a g2, P g → step g a = .ok g2 → P g2) :
    ∀ (l : List α) (g g2 : Frame), P g → List.foldlM step g l = .ok g2 → P g2 := by
  intro l
  induction l with
  | nil =>
    intro g g2 hg hfold
    simp only [List.foldlM_nil, pure, Except.pure] at hfold
    cases hfold
    exact hg
  | cons a t ih =>
    intro g g2 hg hfold
    rw [List.foldlM_cons] at hfold
    cases hs : step g a with
    | error e =>
      rw [hs] at hfold
      simp only [bind, Except.bind] at hfold
      exact Except.noConfusion hfold
    | ok g3 =>
      rw [hs] at hfold
      simp only [bind, Except.bind] at hfold
      exact ih g3 g2 (h g a g3 hg hs) hfold


theorem setColVals_hasDateIndex (f : Frame) (c : String) (vals : List Cell) :
    (setColVals f c vals).hasDateIndex = f.hasDateIndex := rfl

theorem setColVals_header_of_mem {f : Frame} {c : String} (vals : List Cell)
    (h : c ∈ f.header) : (setColVals f c vals).header = f.header := by
  unfold setColVals
  simp [h]

theorem mem_header_setColVals {f : Frame} {c c2 : String} (vals : List Cell)
    (h : c2 ∈ f.header) : c2 ∈ (setColVals f c vals).header := by
  unfold setColVals
  dsimp only
  split
  · exact h
  · exact List.mem_append_left _ h

theorem self_mem_header_setColVals (f : Frame) (c : String) (vals : List Cell) :
    c ∈ (setColVals f c vals).header := by
  unfold setColVals
  dsimp only
  split
  · assumption
  · exact List.mem_append_right _ (List.mem_singleton.mpr rfl)

theorem mem_rows_setColVals {f : Frame} {c : String} {vals : List Cell}
    {p : ℤ × Row} (hp : p ∈ (setColVals f c vals).rows) :
    ∃ p0 ∈ f.rows, ∃ v ∈ vals, p = (p0.1, rowSet p0.2 c v) := by
  unfold setColVals at hp
  dsimp only at hp
  obtain ⟨pv, hpv, rfl⟩ := List.mem_map.mp hp
  have hz := List.of_mem_zip hpv
  exact ⟨pv.1, hz.1, pv.2, hz.2, rfl⟩

/-- Every cell of column `c` (when the key is present) is a number or
`NaN` — the float-dtype invariant of a coerced column. -/
def ColClean (f : Frame) (c : String) : Prop :=
  ∀ p ∈ f.rows, ∀ cl, rowGet p.2 c = some cl →
    (∃ q, cl = Cell.num q) ∨ cl = Cell.na

/-- Every key appearing in a row is a header column — the basic
well-formedness of a real DataFrame. -/
def KeysSub (f : Frame) : Prop := ∀ p ∈ f.rows, ∀ q ∈ p.2, q.1 ∈ f.header

theorem colClean_setColVals_ne {f : Frame} {c c2 : String} {vals : List Cell}
    (hne : c2 ≠ c) (h : ColClean f c2) : ColClean (setColVals f c vals) c2 := by
  intro p hp cl hcl
  obtain ⟨p0, hp0, v, hv, rfl⟩ := mem_rows_setColVals hp
  rw [rowGet_rowSet_ne _ hne] at hcl
  exact h p0 hp0 cl hcl

theorem colClean_setColVals_self {f : Frame} {c : String} {vals : List Cell}
    (hv : ∀ v ∈ vals, (∃ q, v = Cell.num q) ∨ v = Cell.na) :
    ColClean (setColVals f c vals) c := by
  intro p hp cl hcl
  obtain ⟨p0, hp0, v, hvm, rfl⟩ := mem_rows_setColVals hp
  rw [rowGet_rowSet_self] at hcl
  injection hcl with h2
  subst h2
  exact hv v hvm

theorem colClean_of_keysSub_not_mem {f : Frame} {c : String}
    (hk : KeysSub f) (hc : c ∉ f.header) : ColClean f c := by
  intro p hp cl hcl
  exact absurd (hk p hp (c, cl) (rowGet_eq_some_key_mem hcl)) hc

theorem colClean_getCol {f : Frame} {c : String} (h : ColClean f c) :
    ∀ v ∈ getColCells f c, (∃ q, v = Cell.num q) ∨ v = Cell.na := by
  intro v hv
  unfold getColCells at hv
  obtain ⟨p, hp, rfl⟩ := List.mem_map.mp hv
  unfold rowGetD
  cases hg : rowGet p.2 c with
  | none => exact Or.inr rfl
  | some cl => exact h p hp cl hg

theorem mem_bfillList {l : List Cell} {v : Cell} (h : v ∈ bfillList l) :
    v ∈ l ∨ v = Cell.na := by
  induction l with
  | nil => cases h
  | cons a t ih =>
    rw [bfillList] at h
    rcases List.mem_cons.mp h with h1 | h1
    · split at h1
      · cases hf : t.find? (fun x => !x.isNa) with
        | none => rw [hf] at h1; exact Or.inr h1
        | some w =>
          rw [hf] at h1
          have := List.mem_of_find?_eq_some hf
          exact Or.inl (h1 ▸ List.mem_cons_of_mem a this)
      · exact Or.inl (h1 ▸ List.mem_cons_self a t)
    · rcases ih h1 with h2 | h2
      · exact Or.inl (List.mem_cons_of_mem a h2)
      · exact Or.inr h2

theorem mem_ffillGo {prev : Cell} {l : List Cell} {v : Cell}
    (h : v ∈ ffillGo prev l) : v ∈ l ∨ v = prev := by
  induction l generalizing prev with
  | nil => cases h
  | cons a t ih =>
    rw [ffillGo] at h
    rcases List.mem_cons.mp h with h1 | h1
    · split at h1
      · exact Or.inr h1
      · exact Or.inl (h1 ▸ List.mem_cons_self a t)
    · rcases ih h1 with h2 | h2
      · exact Or.inl (List.mem_cons_of_mem a h2)
      · split at h2
        · exact Or.inr h2
        · exact Or.inl (h2 ▸ List.mem_cons_self a t)

theorem mem_ffillList {l : List Cell} {v : Cell} (h : v ∈ ffillList l) :
    v ∈ l ∨ v = Cell.na := mem_ffillGo h

theorem colClean_fillStep {fn : List Cell → List Cell} {f : Frame} {c : String}
    (hfn : ∀ (l : List Cell), ∀ v ∈ fn l, v ∈ l ∨ v = Cell.na)
    (h : ColClean f c) : ColClean (fillStep fn f) c := by
  unfold fillStep
  refine foldl_preserve (fun g => ColClean g c) _ ?_ f.header f h
  intro g a hg
  by_cases hac : a = c
  · subst hac
    refine colClean_setColVals_self ?_
    intro v hv
    rcases hfn _ v hv with h2 | h2
    · exact colClean_getCol hg v h2
    · exact Or.inr h2
  · exact colClean_setColVals_ne (fun hh => hac hh.symm) hg

theorem colClean_dropna {f : Frame} {c : String} (h : ColClean f c) :
    ColClean (dropnaStep f) c := by
  intro p hp cl hcl
  exact h p (List.mem_filter.mp hp).1 cl hcl

/-! ## Step-level invariant lemmas -/

theorem colClean_applyNumeric_self (env : Env) (c : String) (f : Frame) :
    ColClean (applyNumeric env c f) c := by
  unfold applyNumeric
  dsimp only
  split
  · refine colClean_setColVals_self ?_
    intro v hv
    obtain ⟨w, hw, rfl⟩ := List.mem_map.mp hv
    split
    · exact Or.inl ⟨_, rfl⟩
    · obtain ⟨u, hu, rfl⟩ := List.mem_map.mp hw
      unfold toNumCell
      cases parseNumCell env u
      · exact Or.inr rfl
      · exact Or.inl ⟨_, rfl⟩
  · refine colClean_setColVals_self ?_
    intro v hv
    obtain ⟨u, hu, rfl⟩ := List.mem_map.mp hv
    unfold toNumCell
    cases parseNumCell env u
    · exact Or.inr rfl
    · exact Or.inl ⟨_, rfl⟩

theorem colClean_applyNumeric_ne {env : Env} {c c2 : String} {f : Frame}
    (hne : c2 ≠ c) (h : ColClean f c2) : ColClean (applyNumeric env c f) c2 := by
  unfold applyNumeric
  dsimp only
  split
  · exact colClean_setColVals_ne hne h
  · exact colClean_setColVals_ne hne h

theorem applyNumeric_header {env : Env} {c : String} {f : Frame}
    (h : c ∈ f.header) : (applyNumeric env c f).header = f.header := by
  unfold applyNumeric
  dsimp only
  split
  · exact setColVals_header_of_mem _ h
  · exact setColVals_header_of_mem _ h

theorem numericStep_preserves {env : Env} {cols : List String} {f : Frame}
    {c : String} (h : ColClean f c) : ColClean (numericStep env cols f) c := by
  unfold numericStep
  refine foldl_preserve (fun g => ColClean g c) _ ?_ cols f h
  intro g a hg
  by_cases hac : a = c
  · subst hac
    split
    · exact colClean_applyNumeric_self env a g
    · exact hg
  · split
    · exact colClean_applyNumeric_ne (fun hh => hac hh.symm) hg
    · exact hg

theorem numericStep_header (env : Env) (cols : List String) (f : Frame) :
    (numericStep env cols f).header = f.header := by
  unfold numericStep
  suffices hs : ∀ (l : List String) (g : Frame), g.header = f.header →
      (l.foldl (fun acc c => if c ∈ acc.header then applyNumeric env c acc else acc)
        g).header = f.header by
    exact hs cols f rfl
  intro l
  induction l with
  | nil => intro g hg; exact hg
  | cons a t ih =>
    intro g hg
    by_cases hac : a ∈ g.header
    · simp only [List.foldl_cons, if_pos hac]
      exact ih _ ((applyNumeric_header hac).trans hg)
    · simp only [List.foldl_cons, if_neg hac]
      exact ih _ hg

theorem numericStep_colClean_of_mem {env : Env} {cols : List String} {f : Frame}
    {c : String} (h1 : c ∈ cols) (h2 : c ∈ f.header) :
    ColClean (numericStep env cols f) c := by
  induction cols generalizing f with
  | nil => cases h1
  | cons a t ih =>
    rcases List.mem_cons.mp h1 with rfl | hat
    · unfold numericStep
      simp only [List.foldl_cons, if_pos h2]
      have hcc : ColClean (applyNumeric env c f) c := colClean_applyNumeric_self env c f
      exact numericStep_preserves hcc
    · unfold numericStep
      simp only [List.foldl_cons]
      by_cases hah : a ∈ f.header
      · rw [if_pos hah]
        exact ih hat ((applyNumeric_header hah).symm ▸ h2)
      · rw [if_neg hah]
        exact ih hat h2

theorem calendarStep_colClean_ne {env : Env} {f g : Frame} {c : String}
    (h : calendarStep env f = .ok g) (h1 : c ≠ "ano") (h2 : c ≠ "mes")
    (h3 : c ≠ "dia") (h4 : c ≠ "dia_ano") (h5 : c ≠ "dia_semana")
    (hcc : ColClean f c) : ColClean g c := by
  unfold calendarStep at h
  split at h
  · injection h with h6
    subst h6
    exact colClean_setColVals_ne h5 (colClean_setColVals_ne h4
      (colClean_setColVals_ne h3 (colClean_setColVals_ne h2
        (colClean_setColVals_ne h1 hcc))))
  · exact Except.noConfusion h

theorem calendarStep_colClean_mes {env : Env} {f g : Frame}
    (h : calendarStep env f = .ok g) : ColClean g "mes" := by
  unfold calendarStep at h
  split at h
  · injection h with h6
    subst h6
    refine colClean_setColVals_ne (by decide) (colClean_setColVals_ne (by decide)
      (colClean_setColVals_ne (by decide) (colClean_setColVals_self ?_)))
    intro v hv
    obtain ⟨p, hp, rfl⟩ := List.mem_map.mp hv
    exact Or.inl ⟨_, rfl⟩
  · exact Except.noConfusion h

theorem derivedStep_colClean_ne {f g : Frame} {c : String}
    (h : derivedStep f = .ok g) (h1 : c ≠ "temp_media")
    (h2 : c ≠ "amplitude_termica") (hcc : ColClean f c) : ColClean g c := by
  unfold derivedStep at h
  split at h
  · dsimp only at h
    split at h
    next e heq => exact Except.noConfusion h
    next media heq =>
      split at h
      next e heq2 => exact Except.noConfusion h
      next ampl heq2 =>
        injection h with h6
        subst h6
        exact colClean_setColVals_ne h2 (colClean_setColVals_ne h1 hcc)
  · injection h with h6
    subst h6
    exact hcc

theorem cyclicStep_colClean_ne {env : Env} {f g : Frame} {c : String}
    (h : cyclicStep env f = .ok g) (h1 : c ≠ "mes_sin") (h2 : c ≠ "mes_cos")
    (h3 : c ≠ "dia_ano_sin") (h4 : c ≠ "dia_ano_cos")
    (hcc : ColClean f c) : ColClean g c := by
  unfold cyclicStep at h
  split at h
  next e heq => exact Except.noConfusion h
  next ms heq =>
    dsimp only at h
    split at h
    next e heq2 => exact Except.noConfusion h
    next mc heq2 =>
      split at h
      next e heq3 => exact Except.noConfusion h
      next ds heq3 =>
        split at h
        next e heq4 => exact Except.noConfusion h
        next dc2 heq4 =>
          injection h with h6
          subst h6
          exact colClean_setColVals_ne h4 (colClean_setColVals_ne h3
            (colClean_setColVals_ne h2 (colClean_setColVals_ne h1 hcc)))

theorem foldlM_preserve_mem {α : Type} (P : Frame → Prop)
    (step : Frame → α → Except String Frame) :
    ∀ (l : List α),
      (∀ g a g2, a ∈ l → P g → step g a = .ok g2 → P g2) →
      ∀ (g g2 : Frame), P g → List.foldlM step g l = .ok g2 → P g2 := by
  intro l
  induction l with
  | nil =>
    intro _ g g2 hg hfold
    simp only [List.foldlM_nil, pure, Except.pure] at hfold
    cases hfold
    exact hg
  | cons a t ih =>
    intro h g g2 hg hfold
    rw [List.foldlM_cons] at hfold
    cases hs : step g a with
    | error e =>
      rw [hs] at hfold
      simp only [bind, Except.bind] at hfold
      exact Except.noConfusion hfold
    | ok g3 =>
      rw [hs] at hfold
      simp only [bind, Except.bind] at hfold
      exact ih (fun g0 a0 g4 ha0 => h g0 a0 g4 (List.mem_cons_of_mem a ha0))
        g3 g2 (h g a g3 (List.mem_cons_self a t) hg hs) hfold

theorem rollingStep_colClean {f g : Frame} {c : String}
    (h : rollingStep f = .ok g)
    (hne : ∀ a ∈ ["temp_max", "temp_min", "umidade"], c ≠ a ++ "_ma_7d")
    (hcc : ColClean f c) : ColClean g c := by
  unfold rollingStep at h
  split at h
  · refine foldlM_preserve_mem (fun g0 => ColClean g0 c) _
      ["temp_max", "temp_min", "umidade"] ?_ f g hcc h
    intro g0 a g2 ha hg0 hstep
    unfold rollOne at hstep
    by_cases hah : a ∈ g0.header
    · rw [if_pos hah] at hstep
      split at hstep
      next e heq => exact Except.noConfusion hstep
      next vals heq =>
        injection hstep with h6
        subst h6
        exact colClean_setColVals_ne (hne a ha) hg0
    · rw [if_neg hah] at hstep
      injection hstep with h6
      subst h6
      exact hg0
  · injection h with h6
    subst h6
    exact hcc

/-! ## Keys-subset lemmas (DataFrame well-formedness through the steps) -/

theorem keysSub_renameStep {m : List (String × String)} {f : Frame}
    (h : KeysSub f) : KeysSub (renameStep m f) := by
  intro p hp q hq
  unfold renameStep at hp ⊢
  dsimp only at hp ⊢
  obtain ⟨p0, hp0, rfl⟩ := List.mem_map.mp hp
  dsimp only at hq
  obtain ⟨q0, hq0, rfl⟩ := List.mem_map.mp hq
  exact List.mem_map_of_mem _ (h p0 hp0 q0 hq0)

theorem keysSub_dateStep {env : Env} {dc : String} {f : Frame}
    (h : KeysSub f) : KeysSub (dateStep env dc f).1 := by
  intro p hp q hq
  unfold dateStep at hp ⊢
  dsimp only at hp ⊢
  obtain ⟨p1, hp1, rfl⟩ := List.mem_map.mp hp
  rw [List.mem_insertionSort] at hp1
  have hp2 := (List.mem_filter.mp hp1).1
  obtain ⟨p0, hp0, rfl⟩ := List.mem_map.mp hp2
  dsimp only at hq
  have hq1 : q ∈ rowSet p0.2 dc (coerceDateCell env (rowGetD p0.2 dc Cell.na)) :=
    mem_rowErase hq
  have hqdc : ¬ (q.1 == dc) := by
    have := (List.mem_filter.mp hq).2
    simpa using this
  rcases mem_rowSet hq1 with h2 | h2
  · refine List.mem_filter.mpr ⟨h p0 hp0 q h2, ?_⟩
    simpa using hqdc
  · rw [h2] at hqdc
    simp at hqdc

theorem keysSub_setColVals {f : Frame} {c : String} {vals : List Cell}
    (h : KeysSub f) : KeysSub (setColVals f c vals) := by
  intro p hp q hq
  obtain ⟨p0, hp0, v, hv, rfl⟩ := mem_rows_setColVals hp
  rcases mem_rowSet hq with h2 | h2
  · exact mem_header_setColVals vals (h p0 hp0 q h2)
  · rw [h2]
    exact self_mem_header_setColVals f c vals

theorem keysSub_applyNumeric {env : Env} {c : String} {f : Frame}
    (h : KeysSub f) : KeysSub (applyNumeric env c f) := by
  unfold applyNumeric
  dsimp only
  split
  · exact keysSub_setColVals h
  · exact keysSub_setColVals h

theorem keysSub_numericStep {env : Env} {cols : List String} {f : Frame}
    (h : KeysSub f) : KeysSub (numericStep env cols f) := by
  unfold numericStep
  refine foldl_preserve KeysSub _ ?_ cols f h
  intro g a hg
  split
  · exact keysSub_applyNumeric hg
  · exact hg

/-! ## Row-count and header bookkeeping through the steps -/

theorem getColCells_length (f : Frame) (c : String) :
    (getColCells f c).length = f.rows.length := List.length_map _ _

theorem setColVals_length {f : Frame} {c : String} {vals : List Cell}
    (hv : vals.length = f.rows.length) :
    (setColVals f c vals).rows.length = f.rows.length := by
  unfold setColVals
  dsimp only
  rw [List.length_map, List.length_zip, hv, min_self]

theorem renameStep_length (m : List (String × String)) (f : Frame) :
    (renameStep m f).rows.length = f.rows.length := List.length_map _ _

theorem dateStep_length_allparse {env : Env} {dc : String} {f : Frame}
    (hp : ∀ p ∈ f.rows, (parseDateCell env (rowGetD p.2 dc Cell.na)).isSome) :
    (dateStep env dc f).1.rows.length = f.rows.length := by
  unfold dateStep
  dsimp only
  rw [List.length_map, List.length_insertionSort, List.filter_eq_self.mpr,
    List.length_map]
  intro a ha
  obtain ⟨p, hpm, rfl⟩ := List.mem_map.mp ha
  dsimp only
  rw [rowGetD, rowGet_rowSet_self]
  have := hp p hpm
  cases hps : parseDateCell env (rowGetD p.2 dc Cell.na) with
  | none => rw [hps] at this; cases this
  | some d => simp [coerceDateCell, hps, Cell.isNa]

theorem applyNumeric_length (env : Env) (c : String) (f : Frame) :
    (applyNumeric env c f).rows.length = f.rows.length := by
  unfold applyNumeric
  dsimp only
  split
  · apply setColVals_length
    rw [List.length_map, List.length_map, getColCells_length]
  · apply setColVals_length
    rw [List.length_map, getColCells_length]

theorem numericStep_length (env : Env) (cols : List String) (f : Frame) :
    (numericStep env cols f).rows.length = f.rows.length := by
  unfold numericStep
  suffices hs : ∀ (l : List String) (g : Frame), g.rows.length = f.rows.length →
      (l.foldl (fun acc c => if c ∈ acc.header then applyNumeric env c acc else acc)
        g).rows.length = f.rows.length by
    exact hs cols f rfl
  intro l
  induction l with
  | nil => intro g hg; exact hg
  | cons a t ih =>
    intro g hg
    simp only [List.foldl_cons]
    split
    · exact ih _ ((applyNumeric_length env a g).trans hg)
    · exact ih _ hg

theorem calendarStep_length {env : Env} {f g : Frame}
    (h : calendarStep env f = .ok g) : g.rows.length = f.rows.length := by
  unfold calendarStep at h
  split at h
  · injection h with h6
    subst h6
    rw [setColVals_length (by rw [List.length_map]),
      setColVals_length (by rw [List.length_map]),
      setColVals_length (by rw [List.length_map]),
      setColVals_length (by rw [List.length_map]),
      setColVals_length (by rw [List.length_map])]
  · exact Except.noConfusion h

theorem mapM_ok_length {α β : Type} {g : α → Except String β} :
    ∀ {l : List α} {l2 : List β}, l.mapM g = .ok l2 → l2.length = l.length := by
  intro l
  induction l with
  | nil =>
    intro l2 h
    simp only [List.mapM_nil, pure, Except.pure] at h
    cases h
    rfl
  | cons a t ih =>
    intro l2 h
    rw [List.mapM_cons] at h
    cases hg : g a with
    | error e =>
      rw [hg] at h
      simp only [bind, Except.bind] at h
      exact Except.noConfusion h
    | ok b =>
      rw [hg] at h
      simp only [bind, Except.bind] at h
      cases ht : t.mapM g with
      | error e =>
        rw [ht] at h
        simp only [bind, Except.bind] at h
        exact Except.noConfusion h
      | ok l3 =>
        rw [ht] at h
        simp only [bind, Except.bind, pure, Except.pure] at h
        cases h
        simp [ih ht]

theorem derivedStep_length {f g : Frame} (h : derivedStep f = .ok g) :
    g.rows.length = f.rows.length := by
  unfold derivedStep at h
  split at h
  · dsimp only at h
    split at h
    next e heq => exact Except.noConfusion h
    next media heq =>
      split at h
      next e heq2 => exact Except.noConfusion h
      next ampl heq2 =>
        injection h with h6
        subst h6
        have hlm : media.length = f.rows.length := by
          rw [mapM_ok_length heq, List.length_zip, getColCells_length,
            getColCells_length, min_self]
        have hla : ampl.length = f.rows.length := by
          rw [mapM_ok_length heq2, List.length_zip, getColCells_length,
            getColCells_length, min_self]
        rw [setColVals_length (by rw [hla, setColVals_length hlm]),
          setColVals_length hlm]
  · injection h with h6
    subst h6
    rfl

theorem cyclicStep_length {env : Env} {f g : Frame}
    (h : cyclicStep env f = .ok g) : g.rows.length = f.rows.length := by
  unfold cyclicStep at h
  split at h
  next e heq => exact Except.noConfusion h
  next ms heq =>
    dsimp only at h
    split at h
    next e heq2 => exact Except.noConfusion h
    next mc heq2 =>
      split at h
      next e heq3 => exact Except.noConfusion h
      next ds heq3 =>
        split at h
        next e heq4 => exact Except.noConfusion h
        next dc2 heq4 =>
          injection h with h6
          subst h6
          have l1 : ms.length = f.rows.length := by
            rw [mapM_ok_length heq, getColCells_length]
          have e1 : (setColVals f "mes_sin" ms).rows.length = f.rows.length :=
            setColVals_length l1
          have l2 : mc.length = f.rows.length := by
            rw [mapM_ok_length heq2, getColCells_length, e1]
          have e2 : (setColVals (setColVals f "mes_sin" ms) "mes_cos" mc).rows.length
              = f.rows.length := by rw [setColVals_length (by rw [l2, e1]), e1]
          have l3 : ds.length = f.rows.length := by
            rw [mapM_ok_length heq3, getColCells_length, e2]
          have e3 : (setColVals (setColVals (setColVals f "mes_sin" ms) "mes_cos" mc)
              "dia_ano_sin" ds).rows.length = f.rows.length := by
            rw [setColVals_length (by rw [l3, e2]), e2]
          have l4 : dc2.length = f.rows.length := by
            rw [mapM_ok_length heq4, getColCells_length, e3]
          rw [setColVals_length (by rw [l4, e3]), e3]

theorem foldl_preserve_mem {α : Type} (P : Frame → Prop)
    (step : Frame → α → Frame) :
    ∀ (l : List α), (∀ g a, a ∈ l → P g → P (step g a)) →
      ∀ (g : Frame), P g → P (l.foldl step g) := by
  intro l
  induction l with
  | nil => intro _ g hg; exact hg
  | cons a t ih =>
    intro h g hg
    simp only [List.foldl_cons]
    exact ih (fun g0 a0 ha0 => h g0 a0 (List.mem_cons_of_mem a ha0)) _
      (h g a (List.mem_cons_self a t) hg)

theorem fillStep_header (fn : List Cell → List Cell) (f : Frame) :
    (fillStep fn f).header = f.header := by
  unfold fillStep
  refine foldl_preserve_mem (fun g => g.header = f.header) _ f.header ?_ f rfl
  intro g a ha hg
  exact (setColVals_header_of_mem _ (hg ▸ ha)).trans hg

theorem dropnaStep_header (f : Frame) : (dropnaStep f).header = f.header := rfl

theorem calendarStep_header_mono {env : Env} {f g : Frame} {c0 : String}
    (h : calendarStep env f = .ok g) (hc : c0 ∈ f.header) : c0 ∈ g.header := by
  unfold calendarStep at h
  split at h
  · injection h with h6
    subst h6
    exact mem_header_setColVals _ (mem_header_setColVals _ (mem_header_setColVals _
      (mem_header_setColVals _ (mem_header_setColVals _ hc))))
  · exact Except.noConfusion h

theorem calendarStep_adds {env : Env} {f g : Frame}
    (h : calendarStep env f = .ok g) :
    ∀ c0 ∈ ["ano", "mes", "dia", "dia_ano", "dia_semana"], c0 ∈ g.header := by
  unfold calendarStep at h
  split at h
  · injection h with h6
    subst h6
    intro c0 hc0
    simp only [List.mem_cons, List.not_mem_nil, or_false] at hc0
    rcases hc0 with rfl | rfl | rfl | rfl | rfl
    · exact mem_header_setColVals _ (mem_header_setColVals _
        (mem_header_setColVals _ (mem_header_setColVals _
          (self_mem_header_setColVals _ _ _))))
    · exact mem_header_setColVals _ (mem_header_setColVals _
        (mem_header_setColVals _ (self_mem_header_setColVals _ _ _)))
    · exact mem_header_setColVals _ (mem_header_setColVals _
        (self_mem_header_setColVals _ _ _))
    · exact mem_header_setColVals _ (self_mem_header_setColVals _ _ _)
    · exact self_mem_header_setColVals _ _ _
  · exact Except.noConfusion h

theorem derivedStep_header_mono {f g : Frame} {c0 : String}
    (h : derivedStep f = .ok g) (hc : c0 ∈ f.header) : c0 ∈ g.header := by
  unfold derivedStep at h
  split at h
  · dsimp only at h
    split at h
    next e heq => exact Except.noConfusion h
    next media heq =>
      split at h
      next e heq2 => exact Except.noConfusion h
      next ampl heq2 =>
        injection h with h6
        subst h6
        exact mem_header_setColVals _ (mem_header_setColVals _ hc)
  · injection h with h6
    subst h6
    exact hc

theorem cyclicStep_header_mono {env : Env} {f g : Frame} {c0 : String}
    (h : cyclicStep env f = .ok g) (hc : c0 ∈ f.header) : c0 ∈ g.header := by
  unfold cyclicStep at h
  split at h
  next e heq => exact Except.noConfusion h
  next ms heq =>
    dsimp only at h
    split at h
    next e heq2 => exact Except.noConfusion h
    next mc heq2 =>
      split at h
      next e heq3 => exact Except.noConfusion h
      next ds heq3 =>
        split at h
        next e heq4 => exact Except.noConfusion h
        next dc2 heq4 =>
          injection h with h6
          subst h6
          exact mem_header_setColVals _ (mem_header_setColVals _
            (mem_header_setColVals _ (mem_header_setColVals _ hc)))

theorem cyclicStep_adds {env : Env} {f g : Frame}
    (h : cyclicStep env f = .ok g) :
    ∀ c0 ∈ ["mes_sin", "mes_cos", "dia_ano_sin", "dia_ano_cos"],
      c0 ∈ g.header := by
  unfold cyclicStep at h
  split at h
  next e heq => exact Except.noConfusion h
  next ms heq =>
    dsimp only at h
    split at h
    next e heq2 => exact Except.noConfusion h
    next mc heq2 =>
      split at h
      next e heq3 => exact Except.noConfusion h
      next ds heq3 =>
        split at h
        next e heq4 => exact Except.noConfusion h
        next dc2 heq4 =>
          injection h with h6
          subst h6
          intro c0 hc0
          simp only [List.mem_cons, List.not_mem_nil, or_false] at hc0
          rcases hc0 with rfl | rfl | rfl | rfl
          · exact mem_header_setColVals _ (mem_header_setColVals _
              (mem_header_setColVals _ (self_mem_header_setColVals _ _ _)))
          · exact mem_header_setColVals _ (mem_header_setColVals _
              (self_mem_header_setColVals _ _ _))
          · exact mem_header_setColVals _ (self_mem_header_setColVals _ _ _)
          · exact self_mem_header_setColVals _ _ _

theorem rollOne_header_mono {g g2 : Frame} {a c1 : String}
    (h : rollOne g a = .ok g2) (hc : c1 ∈ g.header) : c1 ∈ g2.header := by
  unfold rollOne at h
  split at h
  · split at h
    next e heq => exact Except.noConfusion h
    next vals heq =>
      injection h with h6
      subst h6
      exact mem_header_setColVals _ hc
  · injection h with h6
    subst h6
    exact hc

theorem rollingStep_header_mono {f g : Frame} {c0 : String}
    (h : rollingStep f = .ok g) (hc : c0 ∈ f.header) : c0 ∈ g.header := by
  unfold rollingStep at h
  split at h
  · refine foldlM_preserve (fun g0 => c0 ∈ g0.header) _ ?_
      ["temp_max", "temp_min", "umidade"] f g hc h
    intro g0 a g2 hg0 hstep
    exact rollOne_header_mono hstep hg0
  · injection h with h6
    subst h6
    exact hc

theorem rollFold_adds {c0 : String} :
    ∀ (l : List String) (f g : Frame),
      List.foldlM rollOne f l = .ok g → c0 ∈ l → c0 ∈ f.header →
      (c0 ++ "_ma_7d") ∈ g.header := by
  intro l
  induction l with
  | nil => intro f g _ hc; cases hc
  | cons a t ih =>
    intro f g hfold hc hmem
    rw [List.foldlM_cons] at hfold
    cases hs : rollOne f a with
    | error e =>
      rw [hs] at hfold
      simp only [bind, Except.bind] at hfold
      exact Except.noConfusion hfold
    | ok f2 =>
      rw [hs] at hfold
      simp only [bind, Except.bind] at hfold
      rcases List.mem_cons.mp hc with rfl | hct
      · have hadd : (c0 ++ "_ma_7d") ∈ f2.header := by
          unfold rollOne at hs
          rw [if_pos hmem] at hs
          split at hs
          next e heq => exact Except.noConfusion hs
          next vals heq =>
            injection hs with h6
            subst h6
            exact self_mem_header_setColVals _ _ _
        exact foldlM_preserve (fun g0 => (c0 ++ "_ma_7d") ∈ g0.header) _
          (fun g0 a0 g2 hg0 hstep => rollOne_header_mono hstep hg0) t f2 g
          hadd hfold
      · exact ih f2 g hfold hct (rollOne_header_mono hs hmem)

theorem rollingStep_adds {f g : Frame} {c0 : String}
    (h : rollingStep f = .ok g) (hlen : 7 < f.rows.length)
    (hc : c0 ∈ ["temp_max", "temp_min", "umidade"]) (hmem : c0 ∈ f.header) :
    (c0 ++ "_ma_7d") ∈ g.header := by
  unfold rollingStep at h
  rw [if_pos hlen] at h
  exact rollFold_adds _ f g h hc hmem

theorem dateStep_header (env : Env) (dc : String) (f : Frame) :
    (dateStep env dc f).1.header = f.header.filter (fun h => !(h == dc)) := rfl

theorem featBody_ok_decomp {env : Env} {cfg : FeatConfig} {df : Frame}
    {fn : Frame × ℕ} (h : featBody env cfg df = .ok fn) :
    ∃ f4 f5 f6 f7,
      calendarStep env (numericStep env cfg.numeric_columns
        (if cfg.date_column ∈ (renameStep cfg.column_mapping df).header
         then dateStep env cfg.date_column (renameStep cfg.column_mapping df)
         else (renameStep cfg.column_mapping df, 0)).1) = .ok f4 ∧
      derivedStep f4 = .ok f5 ∧
      cyclicStep env f5 = .ok f6 ∧
      rollingStep f6 = .ok f7 ∧
      fn.1 = dropnaStep (fillStep ffillList (fillStep bfillList f7)) := by
  unfold featBody at h
  dsimp only at h
  split at h
  next e heq => exact Except.noConfusion h
  next f4 heq =>
    split at h
    next e heq2 => exact Except.noConfusion h
    next f5 heq2 =>
      split at h
      next e heq3 => exact Except.noConfusion h
      next f6 heq3 =>
        split at h
        next e heq4 => exact Except.noConfusion h
        next f7 heq4 =>
          injection h with h6
          exact ⟨f4, f5, f6, f7, heq, heq2, heq3, heq4, by rw [← h6]⟩

/-- C5 (amended): on the non-error path, with a parseable date column,
`create_features_enhanced` adds the calendar-derived columns and their
cyclic encodings; it adds the 7-day rolling-mean column of `temp_max`,
`temp_min` and `umidade` when the column is present *and the table has
more than 7 rows*; and backward/forward fill plus the final row drop
leave no missing value. -/
theorem create_features_adds_columns (env : Env) (cfg : FeatConfig) (df : Frame)
    (hdc : cfg.date_column ∈ (renameStep cfg.column_mapping df).header)
    (hparse : ∀ p ∈ (renameStep cfg.column_mapping df).rows,
      (parseDateCell env (rowGetD p.2 cfg.date_column Cell.na)).isSome)
    (hok : (featBody env cfg df).toOption.isSome = true) :
    (∀ c0 ∈ ["ano", "mes", "dia", "dia_ano", "dia_semana", "mes_sin",
             "mes_cos", "dia_ano_sin", "dia_ano_cos"],
       c0 ∈ (create_features_enhanced env cfg df).1.header) ∧
    (∀ c0 ∈ ["temp_max", "temp_min", "umidade"],
       c0 ∈ (renameStep cfg.column_mapping df).header → c0 ≠ cfg.date_column →
       7 < df.rows.length →
       (c0 ++ "_ma_7d") ∈ (create_features_enhanced env cfg df).1.header) ∧
    (∀ p ∈ (create_features_enhanced env cfg df).1.rows, ∀ q ∈ p.2,
       q.2 ≠ Cell.na) := by
  cases hb : featBody env cfg df with
  | error e => rw [hb] at hok; simp [Except.toOption] at hok
  | ok fn =>
    have hw : (create_features_enhanced env cfg df).1 = fn.1 := by
      unfold create_features_enhanced
      rw [hb]
    obtain ⟨f4, f5, f6, f7, heqC, heqD, heqY, heqR, hshape⟩ := featBody_ok_decomp hb
    rw [if_pos hdc] at heqC
    have toFinal4 : ∀ {c1 : String}, c1 ∈ f4.header → c1 ∈ fn.1.header := by
      intro c1 h4
      rw [hshape, dropnaStep_header, fillStep_header, fillStep_header]
      exact rollingStep_header_mono heqR (cyclicStep_header_mono heqY
        (derivedStep_header_mono heqD h4))
    have toFinal6 : ∀ {c1 : String}, c1 ∈ f6.header → c1 ∈ fn.1.header := by
      intro c1 h6
      rw [hshape, dropnaStep_header, fillStep_header, fillStep_header]
      exact rollingStep_header_mono heqR h6
    have toFinal7 : ∀ {c1 : String}, c1 ∈ f7.header → c1 ∈ fn.1.header := by
      intro c1 h7
      rw [hshape, dropnaStep_header, fillStep_header, fillStep_header]
      exact h7
    refine ⟨?_, ?_, ?_⟩
    · intro c0 hc0
      rw [hw]
      simp only [List.mem_cons, List.not_mem_nil, or_false] at hc0
      rcases hc0 with rfl | rfl | rfl | rfl | rfl | rfl | rfl | rfl | rfl
      · exact toFinal4 (calendarStep_adds heqC _ (by simp))
      · exact toFinal4 (calendarStep_adds heqC _ (by simp))
      · exact toFinal4 (calendarStep_adds heqC _ (by simp))
      · exact toFinal4 (calendarStep_adds heqC _ (by simp))
      · exact toFinal4 (calendarStep_adds heqC _ (by simp))
      · exact toFinal6 (cyclicStep_adds heqY _ (by simp))
      · exact toFinal6 (cyclicStep_adds heqY _ (by simp))
      · exact toFinal6 (cyclicStep_adds heqY _ (by simp))
      · exact toFinal6 (cyclicStep_adds heqY _ (by simp))
    · intro c0 hc0 hmem hne hlen
      rw [hw]
      have hstep1 : c0 ∈ (dateStep env cfg.date_column
          (renameStep cfg.column_mapping df)).1.header := by
        rw [dateStep_header]
        refine List.mem_filter.mpr ⟨hmem, ?_⟩
        simpa using hne
      have hmem6 : c0 ∈ f6.header := by
        apply cyclicStep_header_mono heqY
        apply derivedStep_header_mono heqD
        apply calendarStep_header_mono heqC
        rw [numericStep_header]
        exact hstep1
      have hlen6 : 7 < f6.rows.length := by
        have e6 := cyclicStep_length heqY
        have e5 := derivedStep_length heqD
        have e4 := calendarStep_length heqC
        have e3 := numericStep_length env cfg.numeric_columns
          (dateStep env cfg.date_column (renameStep cfg.column_mapping df)).1
        have e2 := dateStep_length_allparse hparse
        have e1 := renameStep_length cfg.column_mapping df
        omega
      exact toFinal7 (rollingStep_adds heqR hlen6 hc0 hmem6)
    · intro p hp q hq
      rw [hw, hshape] at hp
      exact dropnaStep_no_na p hp q hq

/-- A two-row frame with parseable dates and a `temp_max` column. -/
def c5Frame : Frame :=
  ⟨["data", "temp_max"], false,
   [(0, [("data", Cell.date 1), ("temp_max", Cell.num 20)]),
    (1, [("data", Cell.date 2), ("temp_max", Cell.num 21)])]⟩

/-- Counterexample to C5 as stated: a 2-row table with a parseable date
column and `temp_max` present goes through the non-error path, yet no
`temp_max_ma_7d` column is added (the code requires more than 7 rows). -/
theorem create_features_rolling_counterexample :
    "data" ∈ (renameStep predConfig.column_mapping c5Frame).header ∧
    (∀ p ∈ (renameStep predConfig.column_mapping c5Frame).rows,
      (parseDateCell testEnv (rowGetD p.2 "data" Cell.na)).isSome = true) ∧
    (featBody testEnv predConfig c5Frame).toOption.isSome = true ∧
    "temp_max" ∈ (renameStep predConfig.column_mapping c5Frame).header ∧
    "temp_max_ma_7d" ∉
      (create_features_enhanced testEnv predConfig c5Frame).1.header := by
  with_unfolding_all decide

/-- Witness for the amended C5 at the same concrete frame: the calendar
column `ano` is added. -/
theorem create_features_adds_columns_witness :
    "ano" ∈ (create_features_enhanced testEnv predConfig c5Frame).1.header :=
  (create_features_adds_columns testEnv predConfig c5Frame
    (by with_unfolding_all decide)
    (by with_unfolding_all decide)
    (by with_unfolding_all rfl)).1 "ano" (by simp)

/-! ## The prediction formula (C2) -/

/-- `row.get(c, d)` specialised to numeric reads: the stored number, or
the default when the label is missing (the only two shapes on the
clean path). -/
def rowNumD (r : Row) (c : String) (d : ℚ) : ℚ :=
  match rowGet r c with
  | some (.num q) => q
  | _ => d

theorem getLastD_mem {α : Type} {l : List α} (h : l ≠ []) :
    ∀ d : α, l.getLastD d ∈ l := by
  induction l with
  | nil => exact absurd rfl h
  | cons a t ih =>
    intro d
    rw [List.getLastD_cons]
    cases ht : t with
    | nil => simp [List.getLastD]
    | cons b u =>
      rw [← ht]
      have : t ≠ [] := by rw [ht]; exact List.cons_ne_nil b u
      exact List.mem_cons_of_mem a (ih this a)

theorem getFactorBase_eq_of_num {r : Row} {c : String} {d : ℚ}
    (h : ∀ cl, rowGet r c = some cl → ∃ q, cl = Cell.num q) :
    getFactorBase r c d = .ok (some (rowNumD r c d)) := by
  unfold getFactorBase rowNumD
  cases hg : rowGet r c with
  | none => rfl
  | some cl =>
    obtain ⟨q, rfl⟩ := h cl hg
    rfl

theorem seasonal_eq_of_num {r : Row}
    (h : ∀ cl, rowGet r "mes" = some cl → ∃ q, cl = Cell.num q) :
    seasonalFactorOfCell (rowGetD r "mes" (Cell.num 6)) =
      seasonalFactorOfCell (Cell.num (rowNumD r "mes" 6)) := by
  unfold rowGetD rowNumD
  cases hg : rowGet r "mes" with
  | none => rfl
  | some cl =>
    obtain ⟨q, rfl⟩ := h cl hg
    rfl

/-- Through the fixed prediction config, the factor columns of the
processed frame hold plain numbers wherever their key is present. -/
theorem predPipeline_colClean {env : Env} {df : Frame} {fn : Frame × ℕ}
    (hwf : KeysSub df) (hb : featBody env predConfig df = .ok fn) :
    ∀ c ∈ ["temp_max", "umidade", "pressao"],
      ∀ p ∈ fn.1.rows, ∀ cl, rowGet p.2 c = some cl → ∃ q, cl = Cell.num q := by
  obtain ⟨f4, f5, f6, f7, heqC, heqD, heqY, heqR, hshape⟩ := featBody_ok_decomp hb
  intro c hc
  have hk1 : KeysSub (renameStep predConfig.column_mapping df) :=
    keysSub_renameStep hwf
  have hkd : KeysSub (if predConfig.date_column ∈
      (renameStep predConfig.column_mapping df).header
      then dateStep env predConfig.date_column (renameStep predConfig.column_mapping df)
      else (renameStep predConfig.column_mapping df, 0)).1 := by
    split
    · exact keysSub_dateStep hk1
    · exact hk1
  have hclean3 : ColClean (numericStep env predConfig.numeric_columns
      (if predConfig.date_column ∈ (renameStep predConfig.column_mapping df).header
       then dateStep env predConfig.date_column (renameStep predConfig.column_mapping df)
       else (renameStep predConfig.column_mapping df, 0)).1) c := by
    by_cases hmem : c ∈ (if predConfig.date_column ∈
        (renameStep predConfig.column_mapping df).header
        then dateStep env predConfig.date_column (renameStep predConfig.column_mapping df)
        else (renameStep predConfig.column_mapping df, 0)).1.header
    · refine numericStep_colClean_of_mem ?_ hmem
      simp only [List.mem_cons, List.not_mem_nil, or_false] at hc
      rcases hc with rfl | rfl | rfl <;> decide
    · exact numericStep_preserves (colClean_of_keysSub_not_mem hkd hmem)
  have hclean4 : ColClean f4 c := by
    refine calendarStep_colClean_ne heqC ?_ ?_ ?_ ?_ ?_ hclean3 <;>
      (simp only [List.mem_cons, List.not_mem_nil, or_false] at hc;
       rcases hc with rfl | rfl | rfl <;> decide)
  have hclean5 : ColClean f5 c := by
    refine derivedStep_colClean_ne heqD ?_ ?_ hclean4 <;>
      (simp only [List.mem_cons, List.not_mem_nil, or_false] at hc;
       rcases hc with rfl | rfl | rfl <;> decide)
  have hclean6 : ColClean f6 c := by
    refine cyclicStep_colClean_ne heqY ?_ ?_ ?_ ?_ hclean5 <;>
      (simp only [List.mem_cons, List.not_mem_nil, or_false] at hc;
       rcases hc with rfl | rfl | rfl <;> decide)
  have hclean7 : ColClean f7 c := by
    refine rollingStep_colClean heqR ?_ hclean6
    simp only [List.mem_cons, List.not_mem_nil, or_false] at hc
    rcases hc with rfl | rfl | rfl <;> decide
  have hcleanF : ColClean fn.1 c := by
    rw [hshape]
    exact colClean_dropna (colClean_fillStep (fun l v hv => mem_ffillList hv)
      (colClean_fillStep (fun l v hv => mem_bfillList hv) hclean7))
  intro p hp cl hcl
  rcases hcleanF p hp cl hcl with h1 | h1
  · exact h1
  · subst h1
    have hnona : ∀ p2 ∈ fn.1.rows, ∀ q ∈ p2.2, q.2 ≠ Cell.na := by
      rw [hshape]
      exact dropnaStep_no_na
    exact absurd rfl (hnona p hp (c, Cell.na) (rowGet_eq_some_key_mem hcl))

/-- The `mes` column written by the calendar step stays numeric to the
end of the pipeline. -/
theorem predPipeline_mes {env : Env} {df : Frame} {fn : Frame × ℕ}
    (hb : featBody env predConfig df = .ok fn) :
    ∀ p ∈ fn.1.rows, ∀ cl, rowGet p.2 "mes" = some cl →
      ∃ q, cl = Cell.num q := by
  obtain ⟨f4, f5, f6, f7, heqC, heqD, heqY, heqR, hshape⟩ := featBody_ok_decomp hb
  have hclean4 : ColClean f4 "mes" := calendarStep_colClean_mes heqC
  have hclean5 : ColClean f5 "mes" :=
    derivedStep_colClean_ne heqD (by decide) (by decide) hclean4
  have hclean6 : ColClean f6 "mes" :=
    cyclicStep_colClean_ne heqY (by decide) (by decide) (by decide) (by decide)
      hclean5
  have hclean7 : ColClean f7 "mes" :=
    rollingStep_colClean heqR (by decide) hclean6
  have hcleanF : ColClean fn.1 "mes" := by
    rw [hshape]
    exact colClean_dropna (colClean_fillStep (fun l v hv => mem_ffillList hv)
      (colClean_fillStep (fun l v hv => mem_bfillList hv) hclean7))
  intro p hp cl hcl
  rcases hcleanF p hp cl hcl with h1 | h1
  · exact h1
  · subst h1
    have hnona : ∀ p2 ∈ fn.1.rows, ∀ q ∈ p2.2, q.2 ≠ Cell.na := by
      rw [hshape]
      exact dropnaStep_no_na
    exact absurd rfl (hnona p hp ("mes", Cell.na) (rowGet_eq_some_key_mem hcl))

/-- C2: on an input that processes to a non-empty feature table, the
prediction is the closed-form series: `num_days` entries on consecutive
days from today, entry `i` being
`max(0, B + sin(2*pi*i/7)*0.5 + noise_i)` with `B` the fixed arithmetic
expression over the last processed row and the hard-coded municipality
factor (1.0 for a municipality outside the table). -/
theorem make_prediction_closed_form (env : Env) (df : Frame) (num_days : ℕ)
    (muni : String) (noise : ℕ → ℚ)
    (hwf : ∀ p ∈ df.rows, ∀ q ∈ p.2, q.1 ∈ df.header)
    (hok : (featBody env predConfig df).toOption.isSome = true)
    (hne : (create_features_enhanced env predConfig df).1.rows ≠ [])
    (hn : 1 ≤ num_days) :
    (make_prediction_enhanced env df num_days muni noise =
      (List.range num_days).map (fun (i : ℕ) =>
        (env.today + (i : ℤ),
         max 0
           (((2 : ℚ) +
              (rowNumD (lastRow (create_features_enhanced env predConfig df).1)
                  "umidade" 60 - 50) / 50 * 8 +
              (rowNumD (lastRow (create_features_enhanced env predConfig df).1)
                  "temp_max" 25 - 20) / 10 * 3 +
              (1013 - rowNumD (lastRow (create_features_enhanced env predConfig df).1)
                  "pressao" 1013) / 20 * 2 +
              seasonalFactorOfCell (Cell.num
                (rowNumD (lastRow (create_features_enhanced env predConfig df).1)
                  "mes" 6)) * 2) * municipioFactor muni +
            env.sin (2 * env.pi * (i : ℚ) / 7) * (1/2) + noise i)))) ∧
    ((municipio_factors.find? (fun p => p.1 == muni)).isNone = true →
      municipioFactor muni = 1) := by
  constructor
  · cases hb : featBody env predConfig df with
    | error e =>
      rw [hb] at hok
      simp [Except.toOption] at hok
    | ok fn =>
      have hw : (create_features_enhanced env predConfig df).1 = fn.1 := by
        unfold create_features_enhanced
        rw [hb]
      rw [hw] at hne ⊢
      have hmembr : lastRow fn.1 ∈ fn.1.rows.map Prod.snd := by
        unfold lastRow
        exact List.mem_map_of_mem Prod.snd (getLastD_mem hne (0, []))
      have hbrmem : (fn.1.rows.getLastD (0, [])) ∈ fn.1.rows :=
        getLastD_mem hne (0, [])
      have hTM : ∀ cl, rowGet (lastRow fn.1) "temp_max" = some cl →
          ∃ q, cl = Cell.num q :=
        fun cl hcl => predPipeline_colClean hwf hb "temp_max" (by simp) _
          hbrmem cl hcl
      have hUM : ∀ cl, rowGet (lastRow fn.1) "umidade" = some cl →
          ∃ q, cl = Cell.num q :=
        fun cl hcl => predPipeline_colClean hwf hb "umidade" (by simp) _
          hbrmem cl hcl
      have hPR : ∀ cl, rowGet (lastRow fn.1) "pressao" = some cl →
          ∃ q, cl = Cell.num q :=
        fun cl hcl => predPipeline_colClean hwf hb "pressao" (by simp) _
          hbrmem cl hcl
      have hMS : ∀ cl, rowGet (lastRow fn.1) "mes" = some cl →
          ∃ q, cl = Cell.num q :=
        fun cl hcl => predPipeline_mes hb _ hbrmem cl hcl
      have e1 := getFactorBase_eq_of_num (c := "temp_max") (d := 25) hTM
      have e2 := getFactorBase_eq_of_num (c := "umidade") (d := 60) hUM
      have e3 := getFactorBase_eq_of_num (c := "pressao") (d := 1013) hPR
      have es := seasonal_eq_of_num hMS
      have hie : fn.1.rows.isEmpty = false := by
        cases hr : fn.1.rows with
        | nil => exact absurd hr hne
        | cons a t => rfl
      have hpb : predBody env df num_days muni noise =
          .ok ((List.range num_days).map (fun (i : ℕ) =>
            (env.today + (i : ℤ),
             max 0
               (((2 : ℚ) +
                  (rowNumD (lastRow fn.1) "umidade" 60 - 50) / 50 * 8 +
                  (rowNumD (lastRow fn.1) "temp_max" 25 - 20) / 10 * 3 +
                  (1013 - rowNumD (lastRow fn.1) "pressao" 1013) / 20 * 2 +
                  seasonalFactorOfCell (Cell.num (rowNumD (lastRow fn.1) "mes" 6))
                    * 2) * municipioFactor muni +
                env.sin (2 * env.pi * (i : ℚ) / 7) * (1/2) + noise i)))) := by
        unfold predBody
        rw [hw]
        dsimp only
        rw [if_neg (by rw [hie]; exact Bool.false_ne_true)]
        rw [e1, e2, e3]
        dsimp only
        rw [es]
      unfold make_prediction_enhanced
      rw [hpb]
  · intro hf
    unfold municipioFactor
    rw [Option.isNone_iff_eq_none.mp hf]
    rfl

/-- Witness for C2 at the one-row test frame, one day, Santos, zero
noise. -/
theorem make_prediction_closed_form_witness :
    (make_prediction_enhanced testEnv testFrame 1 "Santos" (fun _ => 0) =
      (List.range 1).map (fun (i : ℕ) =>
        (testEnv.today + (i : ℤ),
         max 0
           (((2 : ℚ) +
              (rowNumD (lastRow (create_features_enhanced testEnv predConfig testFrame).1)
                  "umidade" 60 - 50) / 50 * 8 +
              (rowNumD (lastRow (create_features_enhanced testEnv predConfig testFrame).1)
                  "temp_max" 25 - 20) / 10 * 3 +
              (1013 - rowNumD (lastRow (create_features_enhanced testEnv predConfig testFrame).1)
                  "pressao" 1013) / 20 * 2 +
              seasonalFactorOfCell (Cell.num
                (rowNumD (lastRow (create_features_enhanced testEnv predConfig testFrame).1)
                  "mes" 6)) * 2) * municipioFactor "Santos" +
            testEnv.sin (2 * testEnv.pi * (i : ℚ) / 7) * (1/2) + 0)))) ∧
    ((municipio_factors.find? (fun p => p.1 == "Santos")).isNone = true →
      municipioFactor "Santos" = 1) :=
  make_prediction_closed_form testEnv testFrame 1 "Santos" (fun _ => 0)
    (by decide) (by with_unfolding_all rfl) (by with_unfolding_all decide)
    (by norm_num)
